import Mathlib

/-!
# tuntcp: the flow router, the TCP session worker and the ARP responder

A shallow embedding of `tcp.go` and of the frame loop of `main.go`.

* Packets are the layer lists `gopacket.NewPacket` decodes; `Packet.Layer`
  is gopacket's lookup of the first layer of a type.
* `*session` pointers are indices into a heap of session objects, each with
  the goroutine `handle` starts for it.
* The channel `recv` is a FIFO buffer of capacity 128 with a closed flag.
* `gopacket.SerializeLayers` and the outcome of `ifn.Write` are parameters
  (`Env`): the program only compares the byte count `Write` returns with the
  length of the serialised buffer.
* Unsigned 32-bit fields are naturals; the program copies them and does no
  arithmetic on them.
-/

namespace Tuntcp

/-! ## Layers -/

/-- A byte buffer. -/
abbrev Bytes := List Nat

/-- A `net.IP` in its 4-byte form, as `layers.IPv4` decodes it (`data[12:16]`). -/
structure IP where
  a : Nat
  b : Nat
  c : Nat
  d : Nat
deriving DecidableEq, Repr

/-- The four bytes of the address. -/
def IP.bytes (ip : IP) : Bytes := [ip.a, ip.b, ip.c, ip.d]

/-- Go's `net.IP.String` for a 4-byte address: dotted decimal. -/
def IP.String (ip : IP) : String :=
  Nat.repr ip.a ++ "." ++ Nat.repr ip.b ++ "." ++ Nat.repr ip.c ++ "." ++ Nat.repr ip.d

/-- The constant `layers.EthernetTypeIPv4`. -/
def EthernetTypeIPv4 : Nat := 0x0800
/-- The constant `layers.EthernetTypeARP`. -/
def EthernetTypeARP : Nat := 0x0806
/-- The constant `layers.IPProtocolTCP`. -/
def IPProtocolTCP : Nat := 6
/-- The constant `layers.LinkTypeEthernet`. -/
def LinkTypeEthernet : Nat := 1
/-- The constant `layers.ARPRequest`. -/
def ARPRequest : Nat := 1
/-- The constant `layers.ARPReply`. -/
def ARPReply : Nat := 2

/-- The fields of `layers.Ethernet` the program uses. -/
structure Ethernet where
  SrcMAC : Bytes
  DstMAC : Bytes
  EthernetType : Nat
deriving DecidableEq, Repr

/-- The fields of `layers.IPv4` the program uses (the rest stay zero). -/
structure IPv4 where
  SrcIP : IP
  DstIP : IP
  Protocol : Nat
  Version : Nat
  TTL : Nat
deriving DecidableEq, Repr

/-- The fields of `layers.TCP` the program uses, with the other flag bits. -/
structure TCP where
  SrcPort : Nat
  DstPort : Nat
  Seq : Nat
  Ack : Nat
  SYN : Bool
  ACK : Bool
  FIN : Bool
  RST : Bool
  PSH : Bool
  Window : Nat
  Payload : Bytes
deriving DecidableEq, Repr

/-- The fields of `layers.ARP`. -/
structure ARP where
  AddrType : Nat
  Protocol : Nat
  HwAddressSize : Nat
  ProtAddressSize : Nat
  Operation : Nat
  SourceHwAddress : Bytes
  SourceProtAddress : Bytes
  DstHwAddress : Bytes
  DstProtAddress : Bytes
deriving DecidableEq, Repr

/-- A decoded layer; `IPv6` and `Other` stand for the layer types the program
never looks up. -/
inductive Layer where
  | Ethernet (e : Ethernet)
  | IPv4 (ip : IPv4)
  | IPv6
  | TCP (tcp : TCP)
  | ARP (arp : ARP)
  | Other
deriving DecidableEq, Repr

/-- A `gopacket.Packet`: its decoded layers in order. -/
abbrev Packet := List Layer

/-- The call `p.Layer(layers.LayerTypeTCP)`: the first TCP layer, or nil. -/
def Packet.LayerTCP : Packet → Option TCP
  | [] => none
  | Layer.TCP t :: _ => some t
  | _ :: rest => Packet.LayerTCP rest

/-- The call `p.Layer(layers.LayerTypeIPv4)`. -/
def Packet.LayerIPv4 : Packet → Option IPv4
  | [] => none
  | Layer.IPv4 ip :: _ => some ip
  | _ :: rest => Packet.LayerIPv4 rest

/-- The call `p.Layer(layers.LayerTypeEthernet)`. -/
def Packet.LayerEthernet : Packet → Option Ethernet
  | [] => none
  | Layer.Ethernet e :: _ => some e
  | _ :: rest => Packet.LayerEthernet rest

/-- The call `p.Layer(layers.LayerTypeARP)`. -/
def Packet.LayerARP : Packet → Option ARP
  | [] => none
  | Layer.ARP a :: _ => some a
  | _ :: rest => Packet.LayerARP rest

/-! ## Data model of `tcp.go` -/

/-- The connection states, in the order of the `iota` block. -/
inductive TCPState where
  | Listen
  | SynReceived
  | Established
  | FinWait1
  | FinWait2
  | CloseWait
  | LastAck
  | Closing
  | TimeWait
  | Closed
  | SynSent
deriving DecidableEq, Repr

/-- The send sequence variables. -/
structure sendSequenceState where
  UNA : Nat
  NXT : Nat
  WND : Nat
  UP : Bool
  WL1 : Nat
  WL2 : Nat
  ISS : Nat
deriving DecidableEq, Repr

/-- The receive sequence variables. -/
structure receiveSequenceState where
  NXT : Nat
  WND : Nat
  UP : Bool
  IRS : Nat
deriving DecidableEq, Repr

/-- A routed segment: the three layers `handle` extracts. -/
structure tcpPacket where
  transport : TCP
  ip : IPv4
  link : Ethernet
deriving DecidableEq, Repr

/-- A buffered channel of segments. -/
structure Chan where
  buf : List tcpPacket
  closed : Bool
deriving DecidableEq, Repr

/-- The capacity `make(chan *tcpPacket, 128)` gives every inbound queue. -/
def chanCap : Nat := 128

/-- A `net.Conn`, of which the program only uses `Close`. -/
structure Conn where
  isOpen : Bool
deriving DecidableEq, Repr

/-- One TCP flow under the stack's control. -/
structure session where
  socket : Option Conn
  closed : Bool
  recv : Chan
  state : TCPState
  sendSequenceState : sendSequenceState
  receiveSequenceState : receiveSequenceState
deriving DecidableEq, Repr

/-- The virtual interface, seen from the program: the buffers handed to `Write`. -/
structure Interface where
  written : List Bytes
deriving DecidableEq, Repr

/-- What `ifn.Write` returns: a byte count and an error or nil. -/
structure WriteResult where
  n : Int
  err : Option String
deriving DecidableEq, Repr

/-- The library and the device: `gopacket.SerializeLayers` (with `FixLengths`
and `ComputeChecksums`) as a function from layers to the buffer's bytes, and
the result of the k-th `Write` on the interface. -/
structure Env where
  serializeLayers : List Layer → Bytes
  writeResult : Nat → Bytes → WriteResult

/-- The handle: flow table (key to session pointer), interface, MAC and IP. -/
structure tcpHandle where
  sessions : List (String × Nat)
  ifn : Interface
  mac : Bytes
  ipv4 : IP
deriving DecidableEq, Repr

/-- A session object on the heap together with its worker goroutine:
`running` is false once the goroutine has returned. -/
structure Cell where
  sess : session
  running : Bool
deriving DecidableEq, Repr

/-- The whole program state: the handle and the heap of sessions. -/
structure Machine where
  t : tcpHandle
  heap : List Cell
deriving DecidableEq, Repr

/-- How a call ends: normally, in a Go panic (with the state at the panic),
or blocked on a send to a full channel. -/
inductive Outcome (α : Type) where
  | ok (a : α)
  | panic (a : α)
  | blocked
deriving DecidableEq, Repr

/-- The error `sendHandshake` returns. -/
inductive SendError where
  | unableToSend (err : String)
  | shortWrite (n : Int) (len : Nat)
deriving DecidableEq, Repr

/-! ## Operations of `tcp.go` -/

/-- The call `ifn.Write(b)`: the buffer is handed to the device, which answers
with its k-th result. -/
def Interface.Write (E : Env) (ifn : Interface) (b : Bytes) : Interface × WriteResult :=
  ({ written := ifn.written ++ [b] }, E.writeResult ifn.written.length b)

/-- Lookup in the flow table (`t.sessions[key]`). -/
def mapGet (tbl : List (String × Nat)) (key : String) : Option Nat :=
  match tbl with
  | [] => none
  | (k, v) :: rest => if k = key then some v else mapGet rest key

/-- Assignment in the flow table (`t.sessions[key] = v`): replaces the entry. -/
def mapSet (tbl : List (String × Nat)) (key : String) (v : Nat) : List (String × Nat) :=
  (key, v) :: tbl.filter (fun e => decide (e.1 ≠ key))

/-- The flow key `handle` computes (tcp.go lines 95-97):
`srcIP:srcPort->dstIP:dstPort`. -/
def fullAddr (packet : tcpPacket) : String :=
  let srcAddr := packet.ip.SrcIP.String ++ ":" ++ Nat.repr packet.transport.SrcPort
  let dstAddr := packet.ip.DstIP.String ++ ":" ++ Nat.repr packet.transport.DstPort
  srcAddr ++ "->" ++ dstAddr

/-- The method `session.close`. -/
def session.close (s : session) : session :=
  let s := { s with closed := true }
  match s.socket with
  | none => s
  | some _ => { s with socket := some { isOpen := false } }

/-- The session `handle` allocates: state `Listen`, an empty queue, every
other field at its zero value. -/
def newSession : session :=
  { socket := none
    closed := false
    recv := { buf := [], closed := false }
    state := TCPState.Listen
    sendSequenceState := { UNA := 0, NXT := 0, WND := 0, UP := false, WL1 := 0, WL2 := 0, ISS := 0 }
    receiveSequenceState := { NXT := 0, WND := 0, UP := false, IRS := 0 } }

/-- Lines 180-187 of `sendHandshake`: the receive and send sequence variables
are set from the segment and the constants 1024 and 12. -/
def handshakeState (s : session) (packet : tcpPacket) : session :=
  let s := { s with receiveSequenceState := { s.receiveSequenceState with NXT := packet.transport.Seq } }
  let s := { s with receiveSequenceState := { s.receiveSequenceState with WND := packet.transport.Window } }
  let s := { s with receiveSequenceState := { s.receiveSequenceState with IRS := packet.transport.Seq } }
  let s := { s with sendSequenceState := { s.sendSequenceState with WND := 1024 } }
  let s := { s with sendSequenceState := { s.sendSequenceState with ISS := 12 } }
  let s := { s with sendSequenceState := { s.sendSequenceState with NXT := s.sendSequenceState.ISS } }
  { s with sendSequenceState := { s.sendSequenceState with UNA := s.sendSequenceState.ISS } }

/-- Lines 194-214 of `sendHandshake`: the layers of the SYN+ACK, from the
handle, the session as just updated and the segment. -/
def handshakeLayers (t : tcpHandle) (s : session) (packet : tcpPacket) : List Layer :=
  let eth : Ethernet :=
    { SrcMAC := t.mac, DstMAC := packet.link.SrcMAC, EthernetType := EthernetTypeIPv4 }
  let ip : IPv4 :=
    { SrcIP := t.ipv4, DstIP := packet.ip.SrcIP, Protocol := IPProtocolTCP, Version := 4, TTL := 64 }
  let tcp : TCP :=
    { SrcPort := packet.transport.DstPort
      DstPort := packet.transport.SrcPort
      SYN := true
      ACK := true
      FIN := false
      RST := false
      PSH := false
      Window := s.sendSequenceState.WND
      Seq := s.sendSequenceState.NXT
      Ack := s.receiveSequenceState.NXT
      Payload := [] }
  [Layer.Ethernet eth, Layer.IPv4 ip, Layer.TCP tcp]

/-- The buffer `sendHandshake` hands to `Write`: `buf.Bytes()` after
`SerializeLayers`. -/
def handshakeBuf (E : Env) (t : tcpHandle) (s : session) (packet : tcpPacket) : Bytes :=
  E.serializeLayers (handshakeLayers t (handshakeState s packet) packet)

/-- The method `tcpHandle.sendHandshake`: the handle (its interface written
to), the session, and the error or nil. -/
def sendHandshake (E : Env) (t : tcpHandle) (s : session) (packet : tcpPacket) :
    tcpHandle × session × Option SendError :=
  let buf := handshakeBuf E t s packet
  let s := handshakeState s packet
  let w := t.ifn.Write E buf
  let t := { t with ifn := w.1 }
  match w.2.err with
  | some err => (t, s, some (SendError.unableToSend err))
  | none =>
    if w.2.n ≠ (buf.length : Int) then
      (t, s, some (SendError.shortWrite w.2.n buf.length))
    else
      (t, s, none)

/-- A write in full: the device reports no error and as many bytes as the
buffer holds (the two tests of lines 217-223). -/
def fullWrite (w : WriteResult) (buf : Bytes) : Prop :=
  w.err = none ∧ w.n = (buf.length : Int)

/-- One iteration of the worker loop of `handle` (tcp.go lines 121-149) on the
segment just received: the handle, the session, and whether the goroutine
returned. -/
def workerBody (E : Env) (t : tcpHandle) (s : session) (packet : tcpPacket) :
    tcpHandle × session × Bool :=
  match s.state with
  | TCPState.Listen =>
    if !packet.transport.SYN || packet.transport.ACK then
      (t, s.close, true)
    else
      match sendHandshake E t s packet with
      | (t, s, some _) => (t, s.close, true)
      | (t, s, none) => (t, { s with state := TCPState.SynReceived }, false)
  | TCPState.SynReceived => (t, { s with state := TCPState.Established }, false)
  | _ => (t, s, false)

/-- The worker loop run on the segments it receives, in order, until it
returns or they are used up. -/
def workerRun (E : Env) (t : tcpHandle) (s : session) : List tcpPacket → tcpHandle × session × Bool
  | [] => (t, s, false)
  | packet :: rest =>
    match workerBody E t s packet with
    | (t, s, true) => (t, s, true)
    | (t, s, false) => workerRun E t s rest

/-- One scheduling step of the goroutine of the session at `id`: it takes the
head of the queue and runs the loop body, ends when the channel is closed
and drained, and otherwise waits. -/
def workerStep (E : Env) (m : Machine) (id : Nat) : Machine :=
  match m.heap[id]? with
  | none => m
  | some c =>
    if !c.running then m
    else
      match c.sess.recv.buf with
      | [] =>
        if c.sess.recv.closed then { m with heap := m.heap.set id { c with running := false } }
        else m
      | packet :: rest =>
        let s := { c.sess with recv := { c.sess.recv with buf := rest } }
        match workerBody E m.t s packet with
        | (t, s, exited) => { t := t, heap := m.heap.set id { sess := s, running := !exited } }

/-- The send `ch <- packet`. -/
def Chan.send (ch : Chan) (packet : tcpPacket) : Outcome Chan :=
  if ch.closed then Outcome.panic ch
  else if ch.buf.length < chanCap then Outcome.ok { ch with buf := ch.buf ++ [packet] }
  else Outcome.blocked

/-- Lines 105-120 of `handle`: allocate a session in `Listen`, put it in the
table, enqueue the segment and start the worker. -/
def createSession (m : Machine) (key : String) (packet : tcpPacket) : Outcome Machine :=
  let id := m.heap.length
  let s := newSession
  let t := { m.t with sessions := mapSet m.t.sessions key id }
  match s.recv.send packet with
  | Outcome.ok ch =>
    Outcome.ok { t := t, heap := m.heap ++ [{ sess := { s with recv := ch }, running := true }] }
  | Outcome.panic _ => Outcome.panic { t := t, heap := m.heap ++ [{ sess := s, running := false }] }
  | Outcome.blocked => Outcome.blocked

/-- Lines 87-94 of `handle`: the TCP, IPv4 and Ethernet layers of the packet.
Each is a single-value type assertion, which panics on a missing layer;
`none` stands for that panic. -/
def extract (p : Packet) : Option tcpPacket :=
  match p.LayerTCP, p.LayerIPv4, p.LayerEthernet with
  | some tcp, some ipv4, some ethernet => some { transport := tcp, ip := ipv4, link := ethernet }
  | _, _, _ => none

/-- Lines 95-120 of `handle`: the segment is sent to the live session of its
flow key; a closed session's channel is closed and, as for an unknown key, a
new session takes the key. -/
def route (m : Machine) (packet : tcpPacket) : Outcome Machine :=
  let key := fullAddr packet
  match mapGet m.t.sessions key with
  | none => createSession m key packet
  | some id =>
    match m.heap[id]? with
    | none => Outcome.panic m
    | some c =>
      if !c.sess.closed then
        match c.sess.recv.send packet with
        | Outcome.ok ch =>
          Outcome.ok { m with heap := m.heap.set id { c with sess := { c.sess with recv := ch } } }
        | Outcome.panic _ => Outcome.panic m
        | Outcome.blocked => Outcome.blocked
      else if c.sess.recv.closed then Outcome.panic m
      else
        let c := { c with sess := { c.sess with recv := { c.sess.recv with closed := true } } }
        createSession { m with heap := m.heap.set id c } key packet

/-- The method `tcpHandle.handle`, up to the start of the worker goroutine
(whose loop is `workerStep`). -/
def handle (m : Machine) (p : Packet) : Outcome Machine :=
  match extract p with
  | none => Outcome.panic m
  | some packet => route m packet

/-! ## The frame loop of `main.go` -/

/-- The layers of the ARP reply the loop serialises (main.go lines 103-119),
from the stack's MAC and the request's ARP layer. -/
def arpReplyLayers (addr : Bytes) (arpLayer : ARP) : List Layer :=
  let eth : Ethernet :=
    { SrcMAC := addr, DstMAC := arpLayer.SourceHwAddress, EthernetType := EthernetTypeARP }
  let arp : ARP :=
    { AddrType := LinkTypeEthernet
      Protocol := EthernetTypeIPv4
      HwAddressSize := 6
      ProtAddressSize := 4
      Operation := ARPReply
      SourceHwAddress := addr
      SourceProtAddress := arpLayer.DstProtAddress
      DstHwAddress := [0, 0, 0, 0, 0, 0]
      DstProtAddress := arpLayer.SourceProtAddress }
  [Layer.Ethernet eth, Layer.ARP arp]

/-- One iteration of the loop of `main` on a decoded frame (main.go lines
84-133): a frame with a TCP layer goes to `handle`, an ARP request is
answered, anything else is skipped; a failed `Write` of the reply panics. -/
def mainStep (E : Env) (m : Machine) (p : Packet) : Outcome Machine :=
  match p.LayerTCP with
  | some _ => handle m p
  | none =>
    match p.LayerARP with
    | none => Outcome.ok m
    | some arpLayer =>
      if arpLayer.Operation ≠ ARPRequest then Outcome.ok m
      else
        let buf := E.serializeLayers (arpReplyLayers m.t.mac arpLayer)
        let w := m.t.ifn.Write E buf
        let m := { m with t := { m.t with ifn := w.1 } }
        match w.2.err with
        | some _ => Outcome.panic m
        | none => Outcome.ok m

/-- The state `main` starts the loop in: an empty flow table, the MAC
e6:b4:39:c8:f9:b5 and the address 10.0.2.15. -/
def initMachine : Machine :=
  { t := { sessions := []
           ifn := { written := [] }
           mac := [0xe6, 0xb4, 0x39, 0xc8, 0xf9, 0xb5]
           ipv4 := { a := 10, b := 0, c := 2, d := 15 } }
    heap := [] }

/-! ## Specification-side definitions and sample inputs -/

/-- Read a decimal numeral back. -/
def decVal (l : List Char) : Nat := l.foldl (fun acc c => acc * 10 + (c.toNat - 48)) 0

/-- A sample peer segment: a SYN with sequence number 100 and window 4096 from
10.0.2.2:4000 to 10.0.2.15:80. -/
def syn100 : tcpPacket :=
  { transport :=
      { SrcPort := 4000, DstPort := 80, Seq := 100, Ack := 0, SYN := true, ACK := false
        FIN := false, RST := false, PSH := false, Window := 4096, Payload := [] }
    ip :=
      { SrcIP := { a := 10, b := 0, c := 2, d := 2 }, DstIP := { a := 10, b := 0, c := 2, d := 15 }
        Protocol := IPProtocolTCP, Version := 4, TTL := 64 }
    link :=
      { SrcMAC := [2, 0, 0, 0, 0, 1], DstMAC := [0xe6, 0xb4, 0x39, 0xc8, 0xf9, 0xb5]
        EthernetType := EthernetTypeIPv4 } }

/-- A sample environment: every buffer serialises to 54 zero bytes and every
write is reported in full. -/
def envFull : Env :=
  { serializeLayers := fun _ => List.replicate 54 0
    writeResult := fun _ b => { n := b.length, err := none } }

/-- A sample environment whose device reports an error on every write. -/
def envFail : Env :=
  { serializeLayers := fun _ => List.replicate 54 0
    writeResult := fun _ _ => { n := 0, err := some "EIO" } }

/-- Modelled from the spec: the cast `(int32)(x)` of a 32-bit value, which the
source has no function for. -/
def toInt32 (x : Nat) : Int :=
  if x % 2 ^ 32 < 2 ^ 31 then (x % 2 ^ 32 : Nat) else ((x % 2 ^ 32 : Nat) : Int) - 2 ^ 32

/-- Modelled from the spec: `a is before b` iff `(int32)(a - b) < 0`, the
subtraction taken over unsigned 32-bit values. The source defines no such
comparator. -/
def seqBefore (a b : Nat) : Bool :=
  decide (toInt32 ((a % 2 ^ 32 + 2 ^ 32 - b % 2 ^ 32) % 2 ^ 32) < 0)

/-- What happens next: a frame is read off the interface and decoded, or the
worker goroutine of a session is scheduled. -/
inductive Event where
  | frame (p : Packet)
  | work (id : Nat)
deriving DecidableEq, Repr

/-- One event. -/
def step (E : Env) (m : Machine) : Event → Outcome Machine
  | Event.frame p => mainStep E m p
  | Event.work id => Outcome.ok (workerStep E m id)

/-- A run of events, stopped by a panic; a frame whose send would block is not
a step the program can take at that point. -/
def run (E : Env) (m : Machine) : List Event → Outcome Machine
  | [] => Outcome.ok m
  | e :: es =>
    match step E m e with
    | Outcome.ok m1 => run E m1 es
    | Outcome.panic m1 => Outcome.panic m1
    | Outcome.blocked => Outcome.blocked

/-- Segments routed one after the other. -/
def routeAll (m : Machine) : List tcpPacket → Outcome Machine
  | [] => Outcome.ok m
  | p :: ps =>
    match route m p with
    | Outcome.ok m1 => routeAll m1 ps
    | Outcome.panic m1 => Outcome.panic m1
    | Outcome.blocked => Outcome.blocked

/-- Worker goroutines scheduled one after the other. -/
def workAll (E : Env) (m : Machine) : List Nat → Machine
  | [] => m
  | id :: ids => workAll E (workerStep E m id) ids

/-- The pointers of the flow table are allocated and no two keys share one. -/
def WF (m : Machine) : Prop :=
  (∀ k id, mapGet m.t.sessions k = some id → id < m.heap.length) ∧
  (∀ k1 k2 id, mapGet m.t.sessions k1 = some id → mapGet m.t.sessions k2 = some id → k1 = k2)

/-- A bare ACK from the sample peer. -/
def ack100 : tcpPacket :=
  { syn100 with transport := { syn100.transport with SYN := false, ACK := true } }

/-- A TCP segment over IPv6: an Ethernet, an IPv6 and a TCP layer. -/
def tcpOverIPv6 : Packet :=
  [Layer.Ethernet syn100.link, Layer.IPv6, Layer.TCP syn100.transport]

/-- The sample SYN as a decoded frame. -/
def synFrame : Packet :=
  [Layer.Ethernet syn100.link, Layer.IPv4 syn100.ip, Layer.TCP syn100.transport]

/-- An ARP request for 10.0.2.15 from 10.0.2.2 at 02:00:00:00:00:01. -/
def arpRequest : ARP :=
  { AddrType := LinkTypeEthernet
    Protocol := EthernetTypeIPv4
    HwAddressSize := 6
    ProtAddressSize := 4
    Operation := ARPRequest
    SourceHwAddress := [2, 0, 0, 0, 0, 1]
    SourceProtAddress := [10, 0, 2, 2]
    DstHwAddress := [0, 0, 0, 0, 0, 0]
    DstProtAddress := [10, 0, 2, 15] }

/-- The request as a decoded frame. -/
def arpFrame : Packet :=
  [Layer.Ethernet { SrcMAC := [2, 0, 0, 0, 0, 1], DstMAC := [255, 255, 255, 255, 255, 255]
                    EthernetType := EthernetTypeARP },
   Layer.ARP arpRequest]

/-- A second sample flow: the sample SYN from source port 4001. -/
def synOther : tcpPacket :=
  { syn100 with transport := { syn100.transport with SrcPort := 4001 } }

/-! ## Decimal numerals and the flow key -/



theorem digitChar_isDigit (k : Nat) (h : k < 10) : (Nat.digitChar k).isDigit = true := by
  interval_cases k <;> decide

theorem digitChar_val (k : Nat) (h : k < 10) : (Nat.digitChar k).toNat - 48 = k := by
  interval_cases k <;> decide

theorem decVal_snoc (l : List Char) (c : Char) : decVal (l ++ [c]) = decVal l * 10 + (c.toNat - 48) := by
  simp [decVal, List.foldl_append]

theorem toDigitsCore_spec (fuel : Nat) : ∀ (n : Nat) (ds : List Char), n < fuel →
    ∃ l, Nat.toDigitsCore 10 fuel n ds = l ++ ds ∧ (∀ c ∈ l, c.isDigit = true) ∧ decVal l = n := by
  induction fuel with
  | zero => intro n ds h; omega
  | succ fuel ih =>
    intro n ds h
    have hd : n % 10 < 10 := Nat.mod_lt _ (by decide)
    by_cases h0 : n / 10 = 0
    · refine ⟨[Nat.digitChar (n % 10)], ?_, ?_, ?_⟩
      · simp [Nat.toDigitsCore, h0]
      · intro c hc
        simp at hc
        subst hc
        exact digitChar_isDigit _ hd
      · have := digitChar_val _ hd
        simp [decVal, this]
        omega
    · have hlt : n / 10 < fuel := by omega
      obtain ⟨l, hl, hdig, hval⟩ := ih (n / 10) (Nat.digitChar (n % 10) :: ds) hlt
      refine ⟨l ++ [Nat.digitChar (n % 10)], ?_, ?_, ?_⟩
      · simp [Nat.toDigitsCore, h0, hl]
      · intro c hc
        rcases List.mem_append.mp hc with hc | hc
        · exact hdig c hc
        · simp at hc
          subst hc
          exact digitChar_isDigit _ hd
      · rw [decVal_snoc, hval, digitChar_val _ hd]
        omega

theorem repr_data_spec (n : Nat) :
    (∀ c ∈ (Nat.repr n).data, c.isDigit = true) ∧ decVal (Nat.repr n).data = n := by
  obtain ⟨l, hl, hdig, hval⟩ := toDigitsCore_spec (n + 1) n [] (Nat.lt_succ_self n)
  have : (Nat.repr n).data = l := by
    simp [Nat.repr, Nat.toDigits, hl, List.asString]
  rw [this]
  exact ⟨hdig, hval⟩

theorem repr_data_inj {a b : Nat} (h : (Nat.repr a).data = (Nat.repr b).data) : a = b := by
  have ha := (repr_data_spec a).2
  have hb := (repr_data_spec b).2
  rw [h] at ha
  omega

theorem digits_sep_unique : ∀ (l1 l2 : List Char) (c1 c2 : Char) (r1 r2 : List Char),
    (∀ c ∈ l1, c.isDigit = true) → (∀ c ∈ l2, c.isDigit = true) →
    c1.isDigit = false → c2.isDigit = false →
    l1 ++ c1 :: r1 = l2 ++ c2 :: r2 → l1 = l2 ∧ r1 = r2 := by
  intro l1
  induction l1 with
  | nil =>
    intro l2 c1 c2 r1 r2 _ h2 hc1 _ h
    cases l2 with
    | nil => simp at h; exact ⟨rfl, h.2⟩
    | cons x xs =>
      simp at h
      have := h2 x (by simp)
      rw [← h.1, hc1] at this
      exact absurd this (by simp)
  | cons y ys ih =>
    intro l2 c1 c2 r1 r2 h1 h2 hc1 hc2 h
    cases l2 with
    | nil =>
      simp at h
      have := h1 y (by simp)
      rw [h.1, hc2] at this
      exact absurd this (by simp)
    | cons x xs =>
      simp at h
      obtain ⟨hxy, hrest⟩ := h
      have := ih xs c1 c2 r1 r2 (fun c hc => h1 c (by simp [hc])) (fun c hc => h2 c (by simp [hc])) hc1 hc2 hrest
      exact ⟨by rw [hxy, this.1], this.2⟩

theorem repr_digits (n : Nat) : ∀ c ∈ (Nat.repr n).data, c.isDigit = true :=
  (repr_data_spec n).1

/-- The characters of the flow key. -/
theorem fullAddr_data (p : tcpPacket) :
    (fullAddr p).data =
      (Nat.repr p.ip.SrcIP.a).data ++ '.' :: ((Nat.repr p.ip.SrcIP.b).data ++ '.' ::
      ((Nat.repr p.ip.SrcIP.c).data ++ '.' :: ((Nat.repr p.ip.SrcIP.d).data ++ ':' ::
      ((Nat.repr p.transport.SrcPort).data ++ '-' :: '>' ::
      ((Nat.repr p.ip.DstIP.a).data ++ '.' :: ((Nat.repr p.ip.DstIP.b).data ++ '.' ::
      ((Nat.repr p.ip.DstIP.c).data ++ '.' :: ((Nat.repr p.ip.DstIP.d).data ++ ':' ::
      (Nat.repr p.transport.DstPort).data)))))))) := by
  simp [fullAddr, IP.String, String.data_append, List.append_assoc]

/-- The flow key determines the addresses and ports it was built from. -/
theorem fullAddr_inj {p q : tcpPacket} (h : fullAddr p = fullAddr q) :
    p.ip.SrcIP = q.ip.SrcIP ∧ p.transport.SrcPort = q.transport.SrcPort ∧
    p.ip.DstIP = q.ip.DstIP ∧ p.transport.DstPort = q.transport.DstPort := by
  have hd : (fullAddr p).data = (fullAddr q).data := by rw [h]
  rw [fullAddr_data, fullAddr_data] at hd
  have nd1 : ('.' : Char).isDigit = false := by decide
  have nd2 : (':' : Char).isDigit = false := by decide
  have nd3 : ('-' : Char).isDigit = false := by decide
  obtain ⟨e1, hd⟩ := digits_sep_unique _ _ _ _ _ _ (repr_digits _) (repr_digits _) nd1 nd1 hd
  obtain ⟨e2, hd⟩ := digits_sep_unique _ _ _ _ _ _ (repr_digits _) (repr_digits _) nd1 nd1 hd
  obtain ⟨e3, hd⟩ := digits_sep_unique _ _ _ _ _ _ (repr_digits _) (repr_digits _) nd1 nd1 hd
  obtain ⟨e4, hd⟩ := digits_sep_unique _ _ _ _ _ _ (repr_digits _) (repr_digits _) nd2 nd2 hd
  obtain ⟨e5, hd⟩ := digits_sep_unique _ _ _ _ _ _ (repr_digits _) (repr_digits _) nd3 nd3 hd
  have hd := List.tail_eq_of_cons_eq hd
  obtain ⟨e6, hd⟩ := digits_sep_unique _ _ _ _ _ _ (repr_digits _) (repr_digits _) nd1 nd1 hd
  obtain ⟨e7, hd⟩ := digits_sep_unique _ _ _ _ _ _ (repr_digits _) (repr_digits _) nd1 nd1 hd
  obtain ⟨e8, hd⟩ := digits_sep_unique _ _ _ _ _ _ (repr_digits _) (repr_digits _) nd1 nd1 hd
  obtain ⟨e9, hd⟩ := digits_sep_unique _ _ _ _ _ _ (repr_digits _) (repr_digits _) nd2 nd2 hd
  have hs : p.ip.SrcIP = q.ip.SrcIP := by
    cases hp : p.ip.SrcIP; cases hq : q.ip.SrcIP
    rw [hp, hq] at e1 e2 e3 e4
    simp only at e1 e2 e3 e4
    rw [repr_data_inj e1, repr_data_inj e2, repr_data_inj e3, repr_data_inj e4]
  have ht : p.ip.DstIP = q.ip.DstIP := by
    cases hp : p.ip.DstIP; cases hq : q.ip.DstIP
    rw [hp, hq] at e6 e7 e8 e9
    simp only at e6 e7 e8 e9
    rw [repr_data_inj e6, repr_data_inj e7, repr_data_inj e8, repr_data_inj e9]
  exact ⟨hs, repr_data_inj e5, ht, repr_data_inj hd⟩

/-! ## The handshake reply -/

theorem sendHandshake_written (E : Env) (t : tcpHandle) (s : session) (packet : tcpPacket) :
    (sendHandshake E t s packet).1.ifn.written = t.ifn.written ++ [handshakeBuf E t s packet] ∧
    (sendHandshake E t s packet).1.sessions = t.sessions ∧
    (sendHandshake E t s packet).1.mac = t.mac ∧
    (sendHandshake E t s packet).1.ipv4 = t.ipv4 := by
  unfold sendHandshake Interface.Write
  simp only
  split
  · simp
  · split <;> simp

theorem sendHandshake_session (E : Env) (t : tcpHandle) (s : session) (packet : tcpPacket) :
    (sendHandshake E t s packet).2.1 = handshakeState s packet := by
  unfold sendHandshake
  simp only
  split
  · rfl
  · split <;> rfl

theorem sendHandshake_err_iff (E : Env) (t : tcpHandle) (s : session) (packet : tcpPacket) :
    (sendHandshake E t s packet).2.2 = none ↔
      fullWrite (E.writeResult t.ifn.written.length (handshakeBuf E t s packet))
        (handshakeBuf E t s packet) := by
  unfold sendHandshake fullWrite Interface.Write
  simp only
  split
  · rename_i err h
    simp [h]
  · rename_i h
    split
    · rename_i hn
      simp [h, hn]
    · rename_i hn
      simp at hn
      simp [h, hn]

/-- C7. Whatever the segment, `sendHandshake` sets `recvSeq.IRS = recvSeq.NXT`
to the segment's sequence number and `recvSeq.WND` to its window, sets
`sendSeq.UNA = sendSeq.NXT = sendSeq.ISS` (the constant 12) and `sendSeq.WND`
to 1024, and hands to `Write` the serialisation of an Ethernet, an IPv4 and
a TCP layer whose TCP layer has SYN and ACK set, sequence number `ISS`,
acknowledgment number `recvSeq.NXT`, window `sendSeq.WND` and the segment's
ports swapped. -/
theorem sendHandshake_sets_sequence_state_and_reply (E : Env) (t : tcpHandle) (s : session)
    (packet : tcpPacket) :
    (sendHandshake E t s packet).2.1.receiveSequenceState.IRS = packet.transport.Seq ∧
    (sendHandshake E t s packet).2.1.receiveSequenceState.NXT = packet.transport.Seq ∧
    (sendHandshake E t s packet).2.1.receiveSequenceState.WND = packet.transport.Window ∧
    (sendHandshake E t s packet).2.1.sendSequenceState.UNA =
      (sendHandshake E t s packet).2.1.sendSequenceState.ISS ∧
    (sendHandshake E t s packet).2.1.sendSequenceState.NXT =
      (sendHandshake E t s packet).2.1.sendSequenceState.ISS ∧
    (sendHandshake E t s packet).2.1.sendSequenceState.ISS = 12 ∧
    (sendHandshake E t s packet).2.1.sendSequenceState.WND = 1024 ∧
    ∃ eth ip tcp,
      (sendHandshake E t s packet).1.ifn.written =
        t.ifn.written ++ [E.serializeLayers [Layer.Ethernet eth, Layer.IPv4 ip, Layer.TCP tcp]] ∧
      tcp.SYN = true ∧ tcp.ACK = true ∧
      tcp.Seq = (sendHandshake E t s packet).2.1.sendSequenceState.ISS ∧
      tcp.Ack = (sendHandshake E t s packet).2.1.receiveSequenceState.NXT ∧
      tcp.Window = (sendHandshake E t s packet).2.1.sendSequenceState.WND ∧
      tcp.SrcPort = packet.transport.DstPort ∧ tcp.DstPort = packet.transport.SrcPort ∧
      eth.SrcMAC = t.mac ∧ eth.DstMAC = packet.link.SrcMAC ∧
      ip.SrcIP = t.ipv4 ∧ ip.DstIP = packet.ip.SrcIP := by
  rw [sendHandshake_session]
  refine ⟨rfl, rfl, rfl, rfl, rfl, rfl, rfl, ?_⟩
  refine ⟨_, _, _, (sendHandshake_written E t s packet).1, ?_⟩
  simp [handshakeState]

/-- C1 (the code at the failing input). The SYN with sequence number 100 is
answered, whatever the serialiser and the device, with a SYN+ACK whose
acknowledgment number is 100, not 101. -/
theorem sendHandshake_seq100_acks_100 (E : Env) :
    ∃ eth ip tcp,
      (sendHandshake E initMachine.t newSession syn100).1.ifn.written =
        [E.serializeLayers [Layer.Ethernet eth, Layer.IPv4 ip, Layer.TCP tcp]] ∧
      tcp.SYN = true ∧ tcp.ACK = true ∧ tcp.Ack = 100 ∧ tcp.Ack ≠ (100 + 1) % 2 ^ 32 := by
  refine ⟨_, _, _, (sendHandshake_written E initMachine.t newSession syn100).1, ?_⟩
  simp [handshakeState, syn100]

/-! ## The session worker -/

theorem workerBody_listen_bad_flags (E : Env) (t : tcpHandle) (s : session) (packet : tcpPacket)
    (hs : s.state = TCPState.Listen)
    (hf : (!packet.transport.SYN || packet.transport.ACK) = true) :
    workerBody E t s packet = (t, s.close, true) := by
  unfold workerBody
  rw [hs]
  simp only [hf, if_true]

theorem workerBody_listen_syn (E : Env) (t : tcpHandle) (s : session) (packet : tcpPacket)
    (hs : s.state = TCPState.Listen)
    (hsyn : packet.transport.SYN = true) (hack : packet.transport.ACK = false) :
    workerBody E t s packet =
      match (sendHandshake E t s packet).2.2 with
      | some _ => ((sendHandshake E t s packet).1, (handshakeState s packet).close, true)
      | none =>
        ((sendHandshake E t s packet).1,
          { handshakeState s packet with state := TCPState.SynReceived }, false) := by
  have hses := sendHandshake_session E t s packet
  unfold workerBody
  rw [hs]
  simp only [hsyn, hack, Bool.not_true, Bool.or_self, Bool.false_eq_true, if_false]
  rcases h : sendHandshake E t s packet with ⟨t1, s1, e⟩
  rw [h] at hses
  simp only at hses
  subst hses
  cases e <;> rfl

theorem close_state (s : session) : s.close.state = s.state ∧ s.close.closed = true ∧
    s.close.sendSequenceState = s.sendSequenceState ∧
    s.close.receiveSequenceState = s.receiveSequenceState ∧ s.close.recv = s.recv := by
  unfold session.close
  cases s.socket <;> simp

theorem workerBody_synReceived (E : Env) (t : tcpHandle) (s : session) (packet : tcpPacket)
    (hs : s.state = TCPState.SynReceived) :
    workerBody E t s packet = (t, { s with state := TCPState.Established }, false) := by
  unfold workerBody
  rw [hs]

theorem workerBody_other (E : Env) (t : tcpHandle) (s : session) (packet : tcpPacket)
    (h1 : s.state ≠ TCPState.Listen) (h2 : s.state ≠ TCPState.SynReceived) :
    workerBody E t s packet = (t, s, false) := by
  unfold workerBody
  cases hs : s.state <;> simp_all

theorem workerRun_established (E : Env) (t : tcpHandle) (s : session)
    (hs : s.state = TCPState.Established) (ps : List tcpPacket) :
    workerRun E t s ps = (t, s, false) := by
  induction ps with
  | nil => rfl
  | cons p rest ih =>
    unfold workerRun
    rw [workerBody_other E t s p (by rw [hs]; decide) (by rw [hs]; decide)]
    exact ih

theorem workerRun_synReceived (E : Env) (t : tcpHandle) (s : session)
    (hs : s.state = TCPState.SynReceived) (p : tcpPacket) (ps : List tcpPacket) :
    workerRun E t s (p :: ps) = (t, { s with state := TCPState.Established }, false) := by
  unfold workerRun
  rw [workerBody_synReceived E t s p hs]
  exact workerRun_established E t _ rfl ps

/-- C2. A segment with SYN=1 and ACK=0 processed in state `Listen` leaves the
session in `SynReceived` exactly when the write of the SYN+ACK was in full (no
error, and a byte count equal to the length of the serialised buffer); when
it was not, `sendHandshake` returns an error, the session is marked closed,
its state stays `Listen` and the worker returns. In both cases the reply
buffer was handed to the interface. -/
theorem listen_syn_synReceived_iff_full_write (E : Env) (t : tcpHandle) (s : session)
    (packet : tcpPacket) (hs : s.state = TCPState.Listen)
    (hsyn : packet.transport.SYN = true) (hack : packet.transport.ACK = false) :
    ((workerBody E t s packet).2.1.state = TCPState.SynReceived ↔
      fullWrite (E.writeResult t.ifn.written.length (handshakeBuf E t s packet))
        (handshakeBuf E t s packet)) ∧
    (fullWrite (E.writeResult t.ifn.written.length (handshakeBuf E t s packet))
        (handshakeBuf E t s packet) →
      (sendHandshake E t s packet).2.2 = none ∧
      (workerBody E t s packet).2.1.closed = s.closed ∧
      (workerBody E t s packet).2.2 = false) ∧
    (¬ fullWrite (E.writeResult t.ifn.written.length (handshakeBuf E t s packet))
        (handshakeBuf E t s packet) →
      (sendHandshake E t s packet).2.2 ≠ none ∧
      (workerBody E t s packet).2.1.closed = true ∧
      (workerBody E t s packet).2.1.state ≠ TCPState.SynReceived ∧
      (workerBody E t s packet).2.1.state = TCPState.Listen ∧
      (workerBody E t s packet).2.2 = true) ∧
    (workerBody E t s packet).1.ifn.written = t.ifn.written ++ [handshakeBuf E t s packet] := by
  have hiff := sendHandshake_err_iff E t s packet
  have hw := (sendHandshake_written E t s packet).1
  rw [workerBody_listen_syn E t s packet hs hsyn hack]
  cases he : (sendHandshake E t s packet).2.2 with
  | none =>
    have hf := hiff.mp he
    refine ⟨⟨fun _ => hf, fun _ => rfl⟩, fun _ => ⟨rfl, rfl, rfl⟩, fun h => absurd hf h, hw⟩
  | some e =>
    have hf : ¬ fullWrite (E.writeResult t.ifn.written.length (handshakeBuf E t s packet))
        (handshakeBuf E t s packet) := by
      intro h
      rw [hiff.mpr h] at he
      exact absurd he (by simp)
    have hc := close_state (handshakeState s packet)
    have hst : (handshakeState s packet).state = TCPState.Listen := hs
    have hcs : (handshakeState s packet).close.state = TCPState.Listen := by rw [hc.1, hst]
    refine ⟨⟨fun h => ?_, fun h => absurd h hf⟩, fun h => absurd h hf, fun _ => ?_, hw⟩
    · have h2 : (handshakeState s packet).close.state = TCPState.SynReceived := h
      rw [hcs] at h2
      exact absurd h2 (by decide)
    · refine ⟨by simp, hc.2.1, ?_, hcs, rfl⟩
      intro h
      have h2 : (handshakeState s packet).close.state = TCPState.SynReceived := h
      rw [hcs] at h2
      exact absurd h2 (by decide)

/-- Witness for C2: the sample SYN on a fresh session with a device that
writes in full. -/
theorem listen_syn_synReceived_iff_full_write_witness :
    newSession.state = TCPState.Listen ∧ syn100.transport.SYN = true ∧
    syn100.transport.ACK = false ∧
    (workerBody envFull initMachine.t newSession syn100).2.1.state = TCPState.SynReceived ∧
    (workerBody envFail initMachine.t newSession syn100).2.1.closed = true :=
  ⟨rfl, rfl, rfl,
    (listen_syn_synReceived_iff_full_write envFull initMachine.t newSession syn100 rfl rfl rfl).1.mpr
      ⟨rfl, rfl⟩,
    ((listen_syn_synReceived_iff_full_write envFail initMachine.t newSession syn100 rfl rfl rfl).2.2.1
      (fun h => absurd h.1 (by decide))).2.1⟩

/-- C8. On a session in `Listen` whose first segment is a SYN without ACK
answered by a write in full: after that segment the state is `SynReceived`;
after any second segment it is `Established`; after every later segment it is
still `Established`; and the segments after the first leave the interface's
written buffers and the send and receive sequence variables as the first
segment left them, with the session not closed and the worker still running. -/
theorem handshake_then_established (E : Env) (t : tcpHandle) (s : session) (p0 : tcpPacket)
    (hs : s.state = TCPState.Listen)
    (hsyn : p0.transport.SYN = true) (hack : p0.transport.ACK = false)
    (hfull : fullWrite (E.writeResult t.ifn.written.length (handshakeBuf E t s p0))
      (handshakeBuf E t s p0)) :
    (workerRun E t s [p0]).2.1.state = TCPState.SynReceived ∧
    (∀ p1 rest, (workerRun E t s (p0 :: p1 :: rest)).2.1.state = TCPState.Established) ∧
    (∀ ps, (workerRun E t s (p0 :: ps)).1 = (workerRun E t s [p0]).1 ∧
      (workerRun E t s (p0 :: ps)).1.ifn.written = t.ifn.written ++ [handshakeBuf E t s p0] ∧
      (workerRun E t s (p0 :: ps)).2.1.sendSequenceState =
        (workerRun E t s [p0]).2.1.sendSequenceState ∧
      (workerRun E t s (p0 :: ps)).2.1.receiveSequenceState =
        (workerRun E t s [p0]).2.1.receiveSequenceState ∧
      (workerRun E t s (p0 :: ps)).2.1.closed = s.closed ∧
      (workerRun E t s (p0 :: ps)).2.2 = false) := by
  have he := (sendHandshake_err_iff E t s p0).mpr hfull
  have hw := (sendHandshake_written E t s p0).1
  have hb := workerBody_listen_syn E t s p0 hs hsyn hack
  rw [he] at hb
  simp only at hb
  have h1 : workerRun E t s [p0] = ((sendHandshake E t s p0).1,
      { handshakeState s p0 with state := TCPState.SynReceived }, false) := by
    unfold workerRun
    rw [hb]
    rfl
  have h2 : ∀ p1 rest, workerRun E t s (p0 :: p1 :: rest) = ((sendHandshake E t s p0).1,
      { handshakeState s p0 with state := TCPState.Established }, false) := by
    intro p1 rest
    rw [workerRun, hb]
    exact workerRun_synReceived E _ _ rfl p1 rest
  refine ⟨by rw [h1], fun p1 rest => by rw [h2], fun ps => ?_⟩
  cases ps with
  | nil => rw [h1]; exact ⟨rfl, hw, rfl, rfl, rfl, rfl⟩
  | cons p1 rest => rw [h2, h1]; exact ⟨rfl, hw, rfl, rfl, rfl, rfl⟩

/-- Witness for C8: the sample SYN on a fresh session with a device that
writes in full, followed by the same segment twice more. -/
theorem handshake_then_established_witness :
    newSession.state = TCPState.Listen ∧ syn100.transport.SYN = true ∧
    syn100.transport.ACK = false ∧
    (workerRun envFull initMachine.t newSession [syn100, syn100, syn100]).2.1.state =
      TCPState.Established :=
  ⟨rfl, rfl, rfl,
    (handshake_then_established envFull initMachine.t newSession syn100 rfl rfl rfl
      ⟨rfl, rfl⟩).2.1 syn100 [syn100]⟩

theorem seqBefore_self (a : Nat) : seqBefore a a = false := by
  have h : (a % 2 ^ 32 + 2 ^ 32 - a % 2 ^ 32) % 2 ^ 32 = 0 := by
    have : a % 2 ^ 32 + 2 ^ 32 - a % 2 ^ 32 = 2 ^ 32 := by omega
    rw [this]
    norm_num
  unfold seqBefore
  rw [h]
  decide

theorem workerBody_una_nxt (E : Env) (t : tcpHandle) (s : session) (packet : tcpPacket)
    (h : s.sendSequenceState.UNA = s.sendSequenceState.NXT) :
    (workerBody E t s packet).2.1.sendSequenceState.UNA =
      (workerBody E t s packet).2.1.sendSequenceState.NXT := by
  by_cases h1 : s.state = TCPState.Listen
  · by_cases hf : (!packet.transport.SYN || packet.transport.ACK) = true
    · rw [workerBody_listen_bad_flags E t s packet h1 hf]
      show s.close.sendSequenceState.UNA = s.close.sendSequenceState.NXT
      rw [(close_state s).2.2.1]
      exact h
    · have hsyn : packet.transport.SYN = true := by
        cases hh : packet.transport.SYN <;> simp_all
      have hack : packet.transport.ACK = false := by
        cases hh : packet.transport.ACK <;> simp_all
      rw [workerBody_listen_syn E t s packet h1 hsyn hack]
      cases (sendHandshake E t s packet).2.2 with
      | none => rfl
      | some e =>
        show (handshakeState s packet).close.sendSequenceState.UNA =
          (handshakeState s packet).close.sendSequenceState.NXT
        rw [(close_state _).2.2.1]
        rfl
  · by_cases h2 : s.state = TCPState.SynReceived
    · rw [workerBody_synReceived E t s packet h2]
      exact h
    · rw [workerBody_other E t s packet h1 h2]
      exact h

theorem workerRun_una_nxt (E : Env) (ps : List tcpPacket) : ∀ (t : tcpHandle) (s : session),
    s.sendSequenceState.UNA = s.sendSequenceState.NXT →
    (workerRun E t s ps).2.1.sendSequenceState.UNA =
      (workerRun E t s ps).2.1.sendSequenceState.NXT := by
  induction ps with
  | nil => intro t s h; exact h
  | cons p rest ih =>
    intro t s h
    have hb := workerBody_una_nxt E t s p h
    unfold workerRun
    rcases hw : workerBody E t s p with ⟨t1, s1, ex⟩
    rw [hw] at hb
    cases ex with
    | true => exact hb
    | false => exact ih t1 s1 hb

/-- C9. In every state the worker brings a newly created session to, over any
sequence of segments, any handle, serialiser, device and queue contents,
`sendSeq.NXT` is not before `sendSeq.UNA` in the wraparound order (in fact
the two are equal throughout). -/
theorem una_not_after_nxt (E : Env) (t : tcpHandle) (ch : Chan) (ps : List tcpPacket) :
    seqBefore (workerRun E t { newSession with recv := ch } ps).2.1.sendSequenceState.NXT
      (workerRun E t { newSession with recv := ch } ps).2.1.sendSequenceState.UNA = false ∧
    (workerRun E t { newSession with recv := ch } ps).2.1.sendSequenceState.UNA =
      (workerRun E t { newSession with recv := ch } ps).2.1.sendSequenceState.NXT := by
  have h := workerRun_una_nxt E ps t { newSession with recv := ch } rfl
  refine ⟨?_, h⟩
  rw [h]
  exact seqBefore_self _

/-! ## The flow table and the router -/

theorem mapGet_filter_ne (tbl : List (String × Nat)) (key k : String) (h : key ≠ k) :
    mapGet (tbl.filter (fun e => decide (e.1 ≠ key))) k = mapGet tbl k := by
  induction tbl with
  | nil => rfl
  | cons e rest ih =>
    obtain ⟨k1, v1⟩ := e
    by_cases h1 : k1 = key
    · have hk : k1 ≠ k := by rw [h1]; exact h
      rw [List.filter_cons_of_neg (by simp [h1]), ih]
      simp only [mapGet, hk, if_false]
    · rw [List.filter_cons_of_pos (by simp [h1])]
      simp only [mapGet]
      rw [ih]

theorem mapGet_mapSet (tbl : List (String × Nat)) (key : String) (v : Nat) (k : String) :
    mapGet (mapSet tbl key v) k = if key = k then some v else mapGet tbl k := by
  unfold mapSet
  rw [mapGet]
  by_cases h : key = k
  · simp only [h, if_true]
  · simp only [h, if_false]
    exact mapGet_filter_ne tbl key k h

theorem send_open (ch : Chan) (packet : tcpPacket) (hc : ch.closed = false)
    (hl : ch.buf.length < chanCap) :
    ch.send packet = Outcome.ok { ch with buf := ch.buf ++ [packet] } := by
  unfold Chan.send
  simp [hc, hl]

theorem createSession_eq (m : Machine) (key : String) (packet : tcpPacket) :
    createSession m key packet =
      Outcome.ok
        { t := { m.t with sessions := mapSet m.t.sessions key m.heap.length }
          heap := m.heap ++
            [{ sess := { newSession with recv := { buf := [packet], closed := false } }
               running := true }] } := by
  rfl

theorem workerBody_frame (E : Env) (t : tcpHandle) (s : session) (packet : tcpPacket) :
    (workerBody E t s packet).1.sessions = t.sessions ∧
    (workerBody E t s packet).1.mac = t.mac ∧
    (workerBody E t s packet).1.ipv4 = t.ipv4 ∧
    (workerBody E t s packet).2.1.recv = s.recv := by
  have hw := sendHandshake_written E t s packet
  by_cases h1 : s.state = TCPState.Listen
  · by_cases hf : (!packet.transport.SYN || packet.transport.ACK) = true
    · rw [workerBody_listen_bad_flags E t s packet h1 hf]
      exact ⟨rfl, rfl, rfl, (close_state s).2.2.2.2⟩
    · have hsyn : packet.transport.SYN = true := by
        cases hh : packet.transport.SYN <;> simp_all
      have hack : packet.transport.ACK = false := by
        cases hh : packet.transport.ACK <;> simp_all
      rw [workerBody_listen_syn E t s packet h1 hsyn hack]
      cases (sendHandshake E t s packet).2.2 with
      | none => exact ⟨hw.2.1, hw.2.2.1, hw.2.2.2, rfl⟩
      | some e => exact ⟨hw.2.1, hw.2.2.1, hw.2.2.2, (close_state _).2.2.2.2⟩
  · by_cases h2 : s.state = TCPState.SynReceived
    · rw [workerBody_synReceived E t s packet h2]
      exact ⟨rfl, rfl, rfl, rfl⟩
    · rw [workerBody_other E t s packet h1 h2]
      exact ⟨rfl, rfl, rfl, rfl⟩

/-- C10 (the code at the failing input). A frame with an Ethernet, an IPv6 and
a TCP layer has a TCP layer, so the loop hands it to `handle`, whose type
assertion on the missing IPv4 layer panics. -/
theorem mainStep_tcp_over_ipv6_panics (E : Env) :
    Packet.LayerTCP tcpOverIPv6 = some syn100.transport ∧
    Packet.LayerIPv4 tcpOverIPv6 = none ∧
    extract tcpOverIPv6 = none ∧
    mainStep E initMachine tcpOverIPv6 = Outcome.panic initMachine := by
  refine ⟨rfl, rfl, rfl, rfl⟩

/-! ## The ARP responder -/

theorem mainStep_arp (E : Env) (m : Machine) (p : Packet) (arpLayer : ARP)
    (htcp : Packet.LayerTCP p = none) (harp : Packet.LayerARP p = some arpLayer)
    (hop : arpLayer.Operation = ARPRequest) :
    ∃ m1, (mainStep E m p = Outcome.ok m1 ∨ mainStep E m p = Outcome.panic m1) ∧
      m1.t.ifn.written =
        m.t.ifn.written ++ [E.serializeLayers (arpReplyLayers m.t.mac arpLayer)] ∧
      m1.t.sessions = m.t.sessions ∧ m1.heap = m.heap := by
  unfold mainStep
  rw [htcp, harp]
  simp only [hop, ne_eq, not_true_eq_false, if_false]
  split
  · exact ⟨_, Or.inr rfl, rfl, rfl, rfl⟩
  · exact ⟨_, Or.inl rfl, rfl, rfl, rfl⟩

/-- C4 (counterexample). For the sample request from 10.0.2.2 at
02:00:00:00:00:01 for the stack's address 10.0.2.15, the one buffer the loop
writes is, under every serialiser, the serialisation of an ARP layer whose
destination hardware address is 00:00:00:00:00:00, not the requester's MAC,
and whose destination protocol address is 10.0.2.2, not 0.0.0.0. -/
theorem arp_reply_destination_counterexample :
    arpRequest.Operation = ARPRequest ∧
    arpRequest.DstProtAddress = initMachine.t.ipv4.bytes ∧
    ∃ eth arp,
      (∀ E : Env, ∃ m1,
        (mainStep E initMachine arpFrame = Outcome.ok m1 ∨
          mainStep E initMachine arpFrame = Outcome.panic m1) ∧
        m1.t.ifn.written = [E.serializeLayers [Layer.Ethernet eth, Layer.ARP arp]]) ∧
      arp.DstHwAddress = [0, 0, 0, 0, 0, 0] ∧
      arp.DstHwAddress ≠ arpRequest.SourceHwAddress ∧
      arp.DstProtAddress = [10, 0, 2, 2] ∧
      arp.DstProtAddress ≠ [0, 0, 0, 0] := by
  refine ⟨rfl, rfl,
    { SrcMAC := initMachine.t.mac, DstMAC := arpRequest.SourceHwAddress
      EthernetType := EthernetTypeARP },
    { AddrType := LinkTypeEthernet
      Protocol := EthernetTypeIPv4
      HwAddressSize := 6
      ProtAddressSize := 4
      Operation := ARPReply
      SourceHwAddress := initMachine.t.mac
      SourceProtAddress := arpRequest.DstProtAddress
      DstHwAddress := [0, 0, 0, 0, 0, 0]
      DstProtAddress := arpRequest.SourceProtAddress },
    fun E => ?_, rfl, by decide, rfl, by decide⟩
  obtain ⟨m1, h, hw, _⟩ := mainStep_arp E initMachine arpFrame arpRequest rfl rfl rfl
  exact ⟨m1, h, hw⟩

/-- C4 (amended). For a frame with no TCP layer whose ARP layer is a request
for the stack's IP, one iteration of the loop hands exactly one buffer to the
interface and changes nothing else: the serialisation of an Ethernet layer
(source the stack's MAC, destination the request's source hardware address,
type ARP) and an ARP layer with operation Reply, address type Ethernet,
protocol IPv4, sizes 6/4, source hardware address the stack's MAC, source
protocol address the stack's IP, destination hardware address
00:00:00:00:00:00 and destination protocol address the request's source
protocol address. The iteration ends normally unless the write reports an
error, in which case it panics after the write. -/
theorem arp_request_answered_once (E : Env) (m : Machine) (p : Packet) (arpLayer : ARP)
    (htcp : Packet.LayerTCP p = none) (harp : Packet.LayerARP p = some arpLayer)
    (hop : arpLayer.Operation = ARPRequest)
    (hdst : arpLayer.DstProtAddress = m.t.ipv4.bytes) :
    ∃ m1, (mainStep E m p = Outcome.ok m1 ∨ mainStep E m p = Outcome.panic m1) ∧
      (mainStep E m p = Outcome.ok m1 ↔
        (E.writeResult m.t.ifn.written.length
          (E.serializeLayers (arpReplyLayers m.t.mac arpLayer))).err = none) ∧
      m1.t.ifn.written =
        m.t.ifn.written ++
          [E.serializeLayers
            [Layer.Ethernet
              { SrcMAC := m.t.mac
                DstMAC := arpLayer.SourceHwAddress
                EthernetType := EthernetTypeARP },
             Layer.ARP
              { AddrType := LinkTypeEthernet
                Protocol := EthernetTypeIPv4
                HwAddressSize := 6
                ProtAddressSize := 4
                Operation := ARPReply
                SourceHwAddress := m.t.mac
                SourceProtAddress := m.t.ipv4.bytes
                DstHwAddress := [0, 0, 0, 0, 0, 0]
                DstProtAddress := arpLayer.SourceProtAddress }]] ∧
      m1.t.sessions = m.t.sessions ∧ m1.t.mac = m.t.mac ∧ m1.t.ipv4 = m.t.ipv4 ∧
      m1.heap = m.heap := by
  rw [← hdst]
  unfold mainStep
  rw [htcp, harp]
  simp only [hop, ne_eq, not_true_eq_false, if_false]
  cases he : (Interface.Write E m.t.ifn
      (E.serializeLayers (arpReplyLayers m.t.mac arpLayer))).2.err with
  | some e =>
    have he2 : (E.writeResult m.t.ifn.written.length
        (E.serializeLayers (arpReplyLayers m.t.mac arpLayer))).err = some e := he
    refine ⟨_, Or.inr rfl, ?_, rfl, rfl, rfl, rfl, rfl⟩
    rw [he2]
    simp
  | none =>
    have he2 : (E.writeResult m.t.ifn.written.length
        (E.serializeLayers (arpReplyLayers m.t.mac arpLayer))).err = none := he
    refine ⟨_, Or.inl rfl, ?_, rfl, rfl, rfl, rfl, rfl⟩
    rw [he2]
    simp

/-- Witness for C4: the sample request on the initial state with a device that
writes in full. -/
theorem arp_request_answered_once_witness :
    Packet.LayerTCP arpFrame = none ∧ Packet.LayerARP arpFrame = some arpRequest ∧
    arpRequest.Operation = ARPRequest ∧ arpRequest.DstProtAddress = initMachine.t.ipv4.bytes ∧
    ∃ m1, mainStep envFull initMachine arpFrame = Outcome.ok m1 ∧ m1.t.ifn.written.length = 1 := by
  refine ⟨rfl, rfl, rfl, rfl, ?_⟩
  obtain ⟨m1, _, hiff, hw, _⟩ :=
    arp_request_answered_once envFull initMachine arpFrame arpRequest rfl rfl rfl rfl
  exact ⟨m1, hiff.mpr rfl, by rw [hw]; rfl⟩

/-! ## A first segment with the wrong flags -/

theorem getElem?_snoc_length {α : Type} (l : List α) (a : α) : (l ++ [a])[l.length]? = some a := by
  simp

theorem set_snoc_length {α : Type} (l : List α) (a b : α) :
    (l ++ [a]).set l.length b = l ++ [b] := by
  induction l with
  | nil => rfl
  | cons x xs ih => simp [List.set, ih]

theorem route_new (m : Machine) (packet : tcpPacket)
    (hnew : mapGet m.t.sessions (fullAddr packet) = none) :
    route m packet =
      Outcome.ok
        { t := { m.t with sessions := mapSet m.t.sessions (fullAddr packet) m.heap.length }
          heap := m.heap ++
            [{ sess := { newSession with recv := { buf := [packet], closed := false } }
               running := true }] } := by
  unfold route
  simp only [hnew]
  rfl

theorem route_closed (m : Machine) (packet : tcpPacket) (id : Nat) (c : Cell)
    (hk : mapGet m.t.sessions (fullAddr packet) = some id) (hc : m.heap[id]? = some c)
    (hclosed : c.sess.closed = true) (hch : c.sess.recv.closed = false) :
    route m packet =
      Outcome.ok
        { t := { m.t with sessions := mapSet m.t.sessions (fullAddr packet) m.heap.length }
          heap := m.heap.set id
              { c with sess := { c.sess with recv := { c.sess.recv with closed := true } } } ++
            [{ sess := { newSession with recv := { buf := [packet], closed := false } }
               running := true }] } := by
  unfold route
  simp only [hk, hc, hclosed, hch, Bool.not_true, Bool.false_eq_true, if_false]
  rw [createSession_eq]
  simp

theorem route_live (m : Machine) (packet : tcpPacket) (id : Nat) (c : Cell)
    (hk : mapGet m.t.sessions (fullAddr packet) = some id) (hc : m.heap[id]? = some c)
    (hopen : c.sess.closed = false) (hch : c.sess.recv.closed = false)
    (hroom : c.sess.recv.buf.length < chanCap) :
    route m packet =
      Outcome.ok
        { m with
          heap :=
            m.heap.set id
              { c with
                sess :=
                  { c.sess with
                    recv := { c.sess.recv with buf := c.sess.recv.buf ++ [packet] } } } } := by
  unfold route
  simp only [hk, hc, hopen, Bool.not_false, if_true]
  rw [send_open _ _ hch hroom]

theorem workerStep_head (E : Env) (m : Machine) (id : Nat) (c : Cell) (packet : tcpPacket)
    (rest : List tcpPacket) (hc : m.heap[id]? = some c) (hrun : c.running = true)
    (hbuf : c.sess.recv.buf = packet :: rest) :
    workerStep E m id =
      { t := (workerBody E m.t { c.sess with recv := { c.sess.recv with buf := rest } } packet).1
        heap := m.heap.set id
          { sess :=
              (workerBody E m.t { c.sess with recv := { c.sess.recv with buf := rest } } packet).2.1
            running :=
              !(workerBody E m.t { c.sess with recv := { c.sess.recv with buf := rest } }
                packet).2.2 } } := by
  unfold workerStep
  simp only [hc, hrun, Bool.not_true, Bool.false_eq_true, if_false, hbuf]

/-- C3 (counterexample). A bare ACK routed as the first segment of its flow on
the initial state and then processed by the worker leaves the session in
state `Listen`, not `Closed`, marked closed, and the flow table still holds
the flow's key. -/
theorem bare_ack_counterexample :
    ack100.transport.SYN = false ∧ ack100.transport.ACK = true ∧
    mapGet initMachine.t.sessions (fullAddr ack100) = none ∧
    ∃ m1, route initMachine ack100 = Outcome.ok m1 ∧
      ∃ c, (workerStep envFull m1 0).heap[0]? = some c ∧
        c.sess.state = TCPState.Listen ∧ c.sess.state ≠ TCPState.Closed ∧
        c.sess.closed = true ∧
        mapGet (workerStep envFull m1 0).t.sessions (fullAddr ack100) = some 0 ∧
        mapGet (workerStep envFull m1 0).t.sessions (fullAddr ack100) ≠ none := by
  refine ⟨rfl, rfl, rfl, _, rfl, _, rfl, rfl, by decide, rfl, ?_, ?_⟩
  · decide
  · decide

theorem workerStep_new_bad_flags (E : Env) (t : tcpHandle) (heap : List Cell)
    (packet : tcpPacket) (hf : (!packet.transport.SYN || packet.transport.ACK) = true) :
    workerStep E
        { t := t
          heap := heap ++
            [{ sess := { newSession with recv := { buf := [packet], closed := false } }
               running := true }] }
        heap.length =
      { t := t, heap := heap ++ [{ sess := { newSession with closed := true }, running := false }] } := by
  rw [workerStep_head E _ heap.length _ packet [] (getElem?_snoc_length _ _) rfl rfl]
  rw [workerBody_listen_bad_flags E _ _ packet rfl hf]
  simp only [set_snoc_length]
  rfl

/-- C3 (amended). A segment whose flags are not (SYN=1, ACK=0), routed as the
first segment of a flow the table has no entry for, gets a new session in
`Listen` with the segment queued; when the worker processes it the session is
marked closed with its state still `Listen`, the worker returns, nothing is
handed to the interface, and the flow table keeps the key, pointing at the
closed session. The next segment routed for that key closes the old queue and
puts a new session in `Listen` under the key. -/
theorem first_segment_bad_flags_closes_session (E : Env) (m : Machine) (packet : tcpPacket)
    (hnew : mapGet m.t.sessions (fullAddr packet) = none)
    (hf : (!packet.transport.SYN || packet.transport.ACK) = true) :
    ∃ m1, route m packet = Outcome.ok m1 ∧
      m1.heap[m.heap.length]? =
        some { sess := { newSession with recv := { buf := [packet], closed := false } }
               running := true } ∧
      (∃ c, (workerStep E m1 m.heap.length).heap[m.heap.length]? = some c ∧
        c.sess.closed = true ∧ c.sess.state = TCPState.Listen ∧ c.running = false ∧
        c.sess.recv = { buf := [], closed := false } ∧
        c.sess.sendSequenceState = newSession.sendSequenceState ∧
        c.sess.receiveSequenceState = newSession.receiveSequenceState) ∧
      (workerStep E m1 m.heap.length).t.ifn.written = m.t.ifn.written ∧
      (workerStep E m1 m.heap.length).heap.length = m.heap.length + 1 ∧
      mapGet (workerStep E m1 m.heap.length).t.sessions (fullAddr packet) = some m.heap.length ∧
      ∀ next, fullAddr next = fullAddr packet →
        ∃ m3, route (workerStep E m1 m.heap.length) next = Outcome.ok m3 ∧
          m3.t.ifn.written = m.t.ifn.written ∧
          mapGet m3.t.sessions (fullAddr packet) = some (m.heap.length + 1) ∧
          m3.heap[m.heap.length + 1]? =
            some { sess := { newSession with recv := { buf := [next], closed := false } }
                   running := true } := by
  refine ⟨_, route_new m packet hnew, getElem?_snoc_length _ _, ?_⟩
  rw [workerStep_new_bad_flags E _ m.heap packet hf]
  have hget : mapGet (mapSet m.t.sessions (fullAddr packet) m.heap.length) (fullAddr packet) =
      some m.heap.length := by
    rw [mapGet_mapSet]
    simp
  refine ⟨⟨_, getElem?_snoc_length _ _, rfl, rfl, rfl, rfl, rfl, rfl⟩, rfl, by simp, hget, ?_⟩
  intro next hkey
  have hk : mapGet
      ({ t := { m.t with sessions := mapSet m.t.sessions (fullAddr packet) m.heap.length }
         heap := m.heap ++ [{ sess := { newSession with closed := true }, running := false }] } :
        Machine).t.sessions (fullAddr next) = some m.heap.length := by
    rw [hkey]
    exact hget
  rw [route_closed _ next m.heap.length _ hk (getElem?_snoc_length _ _) rfl rfl]
  refine ⟨_, rfl, rfl, ?_, ?_⟩
  · show mapGet (mapSet _ (fullAddr next) _) (fullAddr packet) = _
    rw [mapGet_mapSet, hkey]
    simp
  · simp only [set_snoc_length]
    have hlen : (m.heap ++ [({ sess := { newSession with closed := true, recv := { buf := [], closed := true } }, running := false } : Cell)]).length = m.heap.length + 1 := by
      simp
    rw [← hlen]
    exact getElem?_snoc_length _ _

/-- Witness for C3: the bare ACK on the initial state. -/
theorem first_segment_bad_flags_closes_session_witness :
    mapGet initMachine.t.sessions (fullAddr ack100) = none ∧
    (!ack100.transport.SYN || ack100.transport.ACK) = true ∧
    ∃ m1, route initMachine ack100 = Outcome.ok m1 ∧
      (workerStep envFull m1 0).t.ifn.written = [] := by
  refine ⟨rfl, rfl, ?_⟩
  obtain ⟨m1, h1, _, _, h3, _⟩ :=
    first_segment_bad_flags_closes_session envFull initMachine ack100 rfl rfl
  exact ⟨m1, h1, h3⟩

/-! ## Worker steps leave the table alone and take from the front of a queue -/

theorem getElem?_set_of_some {α : Type} (l : List α) (i : Nat) (a b : α) (h : l[i]? = some b) :
    (l.set i a)[i]? = some a := by
  obtain ⟨hi, _⟩ := List.getElem?_eq_some.mp h
  exact List.getElem?_set_self hi

theorem workerStep_cases (E : Env) (m : Machine) (j : Nat) :
    workerStep E m j = m ∨
    (∃ c, m.heap[j]? = some c ∧
      workerStep E m j = { m with heap := m.heap.set j { c with running := false } }) ∨
    (∃ c packet rest, m.heap[j]? = some c ∧ c.sess.recv.buf = packet :: rest ∧
      workerStep E m j =
        { t := (workerBody E m.t { c.sess with recv := { c.sess.recv with buf := rest } } packet).1
          heap := m.heap.set j
            { sess :=
                (workerBody E m.t { c.sess with recv := { c.sess.recv with buf := rest } }
                  packet).2.1
              running :=
                !(workerBody E m.t { c.sess with recv := { c.sess.recv with buf := rest } }
                  packet).2.2 } }) := by
  cases hj : m.heap[j]? with
  | none => left; unfold workerStep; simp only [hj]
  | some c =>
    by_cases hrun : c.running = true
    · cases hbuf : c.sess.recv.buf with
      | nil =>
        by_cases hcl : c.sess.recv.closed = true
        · right; left
          refine ⟨c, rfl, ?_⟩
          unfold workerStep
          simp only [hj, hrun, hbuf, hcl, Bool.not_true, Bool.false_eq_true, if_false, if_true]
        · left
          unfold workerStep
          simp only [hj, hrun, hbuf, hcl, Bool.not_true, Bool.false_eq_true, if_false]
      | cons packet rest =>
        right; right
        exact ⟨c, packet, rest, rfl, hbuf, workerStep_head E m j c packet rest hj hrun hbuf⟩
    · left
      unfold workerStep
      simp only [hj, hrun, Bool.not_false, Bool.not_eq_true, if_true]

theorem workerStep_table (E : Env) (m : Machine) (j : Nat) :
    (workerStep E m j).t.sessions = m.t.sessions ∧
    (workerStep E m j).heap.length = m.heap.length := by
  rcases workerStep_cases E m j with h | ⟨c, _, h⟩ | ⟨c, packet, rest, _, _, h⟩
  · rw [h]; exact ⟨rfl, rfl⟩
  · rw [h]; exact ⟨rfl, by simp⟩
  · rw [h]; exact ⟨(workerBody_frame E m.t _ packet).1, by simp⟩

theorem workerStep_queue (E : Env) (m : Machine) (j id : Nat) (c0 : Cell)
    (h0 : m.heap[id]? = some c0) :
    ∃ c k, (workerStep E m j).heap[id]? = some c ∧
      c.sess.recv.closed = c0.sess.recv.closed ∧
      c.sess.recv.buf = c0.sess.recv.buf.drop k := by
  rcases workerStep_cases E m j with h | ⟨c, hc, h⟩ | ⟨c, packet, rest, hc, hbuf, h⟩
  · rw [h]; exact ⟨c0, 0, h0, rfl, rfl⟩
  · rw [h]
    by_cases hij : j = id
    · subst hij
      rw [h0] at hc
      cases hc
      exact ⟨_, 0, getElem?_set_of_some _ _ _ _ h0, rfl, rfl⟩
    · exact ⟨c0, 0, by simp only [List.getElem?_set_ne hij]; exact h0, rfl, rfl⟩
  · rw [h]
    by_cases hij : j = id
    · subst hij
      rw [h0] at hc
      cases hc
      refine ⟨_, 1, getElem?_set_of_some _ _ _ _ h0, ?_, ?_⟩
      · simp only [(workerBody_frame E m.t _ packet).2.2.2]
      · simp only [(workerBody_frame E m.t _ packet).2.2.2, hbuf]
        rfl
    · exact ⟨c0, 0, by simp only [List.getElem?_set_ne hij]; exact h0, rfl, rfl⟩

theorem workAll_table (E : Env) (ids : List Nat) : ∀ (m : Machine),
    (workAll E m ids).t.sessions = m.t.sessions ∧
    (workAll E m ids).heap.length = m.heap.length := by
  induction ids with
  | nil => intro m; exact ⟨rfl, rfl⟩
  | cons j rest ih =>
    intro m
    have h1 := workerStep_table E m j
    have h2 := ih (workerStep E m j)
    exact ⟨h2.1.trans h1.1, h2.2.trans h1.2⟩

theorem workAll_queue (E : Env) (ids : List Nat) : ∀ (m : Machine) (id : Nat) (c0 : Cell),
    m.heap[id]? = some c0 →
    ∃ c k, (workAll E m ids).heap[id]? = some c ∧
      c.sess.recv.closed = c0.sess.recv.closed ∧
      c.sess.recv.buf = c0.sess.recv.buf.drop k := by
  induction ids with
  | nil => intro m id c0 h0; exact ⟨c0, 0, h0, rfl, rfl⟩
  | cons j rest ih =>
    intro m id c0 h0
    obtain ⟨c1, k1, h1, hcl1, hb1⟩ := workerStep_queue E m j id c0 h0
    obtain ⟨c2, k2, h2, hcl2, hb2⟩ := ih (workerStep E m j) id c1 h1
    refine ⟨c2, k1 + k2, h2, hcl2.trans hcl1, ?_⟩
    rw [hb2, hb1, List.drop_drop]

/-! ## One session per flow -/

theorem filter_key_mapSet (tbl : List (String × Nat)) (key : String) (v : Nat) :
    (mapSet tbl key v).filter (fun e => decide (e.1 = key)) = [(key, v)] := by
  unfold mapSet
  rw [List.filter_cons_of_pos (by simp), List.filter_filter]
  congr 1
  rw [List.filter_eq_nil_iff]
  intro e _
  simp

theorem route_creates (m : Machine) (packet : tcpPacket)
    (hfree : mapGet m.t.sessions (fullAddr packet) = none ∨
      ∃ id c, mapGet m.t.sessions (fullAddr packet) = some id ∧ m.heap[id]? = some c ∧
        c.sess.closed = true ∧ c.sess.recv.closed = false) :
    ∃ heap0, heap0.length = m.heap.length ∧
      route m packet =
        Outcome.ok
          { t := { m.t with sessions := mapSet m.t.sessions (fullAddr packet) m.heap.length }
            heap := heap0 ++
              [{ sess := { newSession with recv := { buf := [packet], closed := false } }
                 running := true }] } := by
  rcases hfree with hnew | ⟨id, c, hk, hc, hclosed, hch⟩
  · exact ⟨m.heap, rfl, route_new m packet hnew⟩
  · exact ⟨_, by simp, route_closed m packet id c hk hc hclosed hch⟩

/-- C5. Two segments of one flow key routed in succession, whatever their flags
(so in particular two SYNs), from a state with no live session for the key
(no entry, or an entry whose session is closed): the first call allocates one
session in `Listen` with the segment as its only queued input and makes it
the key's single table entry; after any worker steps that leave that session
not closed, the second call appends its segment to that same session's
queue, allocates nothing, and leaves the table and every other session as
they were. -/
theorem two_segments_one_session (E : Env) (m : Machine) (p1 p2 : tcpPacket)
    (hkey : fullAddr p2 = fullAddr p1)
    (hfree : mapGet m.t.sessions (fullAddr p1) = none ∨
      ∃ id c, mapGet m.t.sessions (fullAddr p1) = some id ∧ m.heap[id]? = some c ∧
        c.sess.closed = true ∧ c.sess.recv.closed = false) :
    ∃ m1, route m p1 = Outcome.ok m1 ∧
      m1.heap.length = m.heap.length + 1 ∧
      mapGet m1.t.sessions (fullAddr p1) = some m.heap.length ∧
      (m1.t.sessions.filter (fun e => decide (e.1 = fullAddr p1))).length = 1 ∧
      m1.heap[m.heap.length]? =
        some { sess := { newSession with recv := { buf := [p1], closed := false } }
               running := true } ∧
      ∀ ids c, (workAll E m1 ids).heap[m.heap.length]? = some c → c.sess.closed = false →
        ∃ m2, route (workAll E m1 ids) p2 = Outcome.ok m2 ∧
          m2.t = (workAll E m1 ids).t ∧
          m2.t.sessions = m1.t.sessions ∧
          m2.heap.length = m1.heap.length ∧
          mapGet m2.t.sessions (fullAddr p1) = some m.heap.length ∧
          (m2.t.sessions.filter (fun e => decide (e.1 = fullAddr p1))).length = 1 ∧
          m2.heap[m.heap.length]? =
            some { c with
                   sess :=
                     { c.sess with
                       recv := { c.sess.recv with buf := c.sess.recv.buf ++ [p2] } } } ∧
          ∀ id, id ≠ m.heap.length → m2.heap[id]? = (workAll E m1 ids).heap[id]? := by
  obtain ⟨heap0, hlen, hroute⟩ := route_creates m p1 hfree
  generalize hm1 : ({ t := { m.t with sessions := mapSet m.t.sessions (fullAddr p1) m.heap.length }
                      heap := heap0 ++
                        [{ sess := { newSession with recv := { buf := [p1], closed := false } }
                           running := true }] } : Machine) = m1 at hroute
  have hs1 : m1.t.sessions = mapSet m.t.sessions (fullAddr p1) m.heap.length := by rw [← hm1]
  have hh1 : m1.heap = heap0 ++
      [{ sess := { newSession with recv := { buf := [p1], closed := false } }
         running := true }] := by rw [← hm1]
  have hget : mapGet m1.t.sessions (fullAddr p1) = some m.heap.length := by
    rw [hs1, mapGet_mapSet]
    simp
  have hcell : m1.heap[m.heap.length]? =
      some { sess := { newSession with recv := { buf := [p1], closed := false } }
             running := true } := by
    rw [hh1, ← hlen]
    exact getElem?_snoc_length _ _
  have hcount : (m1.t.sessions.filter (fun e => decide (e.1 = fullAddr p1))).length = 1 := by
    rw [hs1, filter_key_mapSet]
    rfl
  have hl1 : m1.heap.length = m.heap.length + 1 := by
    rw [hh1]
    simp [hlen]
  refine ⟨m1, hroute, hl1, hget, hcount, hcell, ?_⟩
  intro ids c hc hopen
  have htab := workAll_table E ids m1
  obtain ⟨c1, k, hc1, hcl, hbuf⟩ := workAll_queue E ids m1 m.heap.length _ hcell
  rw [hc] at hc1
  cases hc1
  have hch : c.sess.recv.closed = false := hcl
  have hbuf2 : c.sess.recv.buf = List.drop k [p1] := hbuf
  have hroom : c.sess.recv.buf.length < chanCap := by
    rw [hbuf2]
    have : (List.drop k [p1]).length ≤ 1 := by
      rw [List.length_drop]
      simp
    unfold chanCap
    omega
  have hk2 : mapGet (workAll E m1 ids).t.sessions (fullAddr p2) = some m.heap.length := by
    rw [htab.1, hkey]
    exact hget
  rw [route_live (workAll E m1 ids) p2 m.heap.length c hk2 hc hopen hch hroom]
  refine ⟨_, rfl, rfl, htab.1, ?_, ?_, ?_, getElem?_set_of_some _ _ _ _ hc, ?_⟩
  · simp only [List.length_set]
    exact htab.2
  · show mapGet (workAll E m1 ids).t.sessions (fullAddr p1) = _
    rw [htab.1]
    exact hget
  · show ((workAll E m1 ids).t.sessions.filter _).length = 1
    rw [htab.1]
    exact hcount
  · intro id hid
    exact List.getElem?_set_ne (Ne.symm hid)

/-- Witness for C5: the sample SYN twice in immediate succession on the
initial state. -/
theorem two_segments_one_session_witness :
    fullAddr syn100 = fullAddr syn100 ∧ mapGet initMachine.t.sessions (fullAddr syn100) = none ∧
    ∃ m1, route initMachine syn100 = Outcome.ok m1 ∧
      m1.heap.length = 1 ∧
      ∃ m2, route m1 syn100 = Outcome.ok m2 ∧ m2.heap.length = 1 := by
  refine ⟨rfl, rfl, ?_⟩
  obtain ⟨m1, h1, hl, _, _, hcell, h2⟩ :=
    two_segments_one_session envFull initMachine syn100 syn100 rfl (Or.inl rfl)
  obtain ⟨m2, hr, _, _, hl2, _⟩ := h2 [] _ hcell rfl
  exact ⟨m1, h1, hl, m2, hr, hl2.trans hl⟩

/-! ## Flow isolation -/

theorem WF_of_eq (m m1 : Machine) (hs : m1.t.sessions = m.t.sessions)
    (hl : m1.heap.length = m.heap.length) (h : WF m) : WF m1 := by
  unfold WF at *
  rw [hs, hl]
  exact h

theorem WF_init : WF initMachine := by
  refine ⟨fun k id h => ?_, fun k1 k2 id h => ?_⟩
  · exact absurd h (by simp [initMachine, mapGet])
  · exact absurd h (by simp [initMachine, mapGet])

theorem WF_create (m : Machine) (heap0 : List Cell) (key : String) (c : Cell)
    (hl : heap0.length = m.heap.length) (h : WF m) :
    WF { t := { m.t with sessions := mapSet m.t.sessions key m.heap.length }
         heap := heap0 ++ [c] } := by
  obtain ⟨hb, hi⟩ := h
  refine ⟨fun k id hk => ?_, fun k1 k2 id h1 h2 => ?_⟩
  · have hk2 : mapGet (mapSet m.t.sessions key m.heap.length) k = some id := hk
    rw [mapGet_mapSet] at hk2
    show id < (heap0 ++ [c]).length
    rw [List.length_append, hl]
    by_cases hkk : key = k
    · simp only [hkk, if_true] at hk2
      cases hk2
      simp
    · simp only [hkk, if_false] at hk2
      have := hb k id hk2
      simp
      omega
  · have h1b : mapGet (mapSet m.t.sessions key m.heap.length) k1 = some id := h1
    have h2b : mapGet (mapSet m.t.sessions key m.heap.length) k2 = some id := h2
    rw [mapGet_mapSet] at h1b h2b
    by_cases hk1 : key = k1
    · simp only [hk1, if_true] at h1b
      cases h1b
      by_cases hk2 : key = k2
      · rw [← hk1, ← hk2]
      · simp only [hk2, if_false] at h2b
        have := hb k2 _ h2b
        omega
    · simp only [hk1, if_false] at h1b
      by_cases hk2 : key = k2
      · simp only [hk2, if_true] at h2b
        cases h2b
        have := hb k1 _ h1b
        omega
      · simp only [hk2, if_false] at h2b
        exact hi k1 k2 id h1b h2b

theorem route_cases (m : Machine) (p : tcpPacket) (m1 : Machine)
    (h : route m p = Outcome.ok m1) :
    (∃ id c, mapGet m.t.sessions (fullAddr p) = some id ∧ m.heap[id]? = some c ∧
      c.sess.closed = false ∧
      m1 = { m with
             heap :=
               m.heap.set id
                 { c with
                   sess :=
                     { c.sess with
                       recv := { c.sess.recv with buf := c.sess.recv.buf ++ [p] } } } }) ∨
    (mapGet m.t.sessions (fullAddr p) = none ∧
      m1 = { t := { m.t with sessions := mapSet m.t.sessions (fullAddr p) m.heap.length }
             heap := m.heap ++
               [{ sess := { newSession with recv := { buf := [p], closed := false } }
                  running := true }] }) ∨
    (∃ id c, mapGet m.t.sessions (fullAddr p) = some id ∧ m.heap[id]? = some c ∧
      c.sess.closed = true ∧
      m1 = { t := { m.t with sessions := mapSet m.t.sessions (fullAddr p) m.heap.length }
             heap := m.heap.set id
                 { c with sess := { c.sess with recv := { c.sess.recv with closed := true } } } ++
               [{ sess := { newSession with recv := { buf := [p], closed := false } }
                  running := true }] }) := by
  cases hk : mapGet m.t.sessions (fullAddr p) with
  | none =>
    right; left
    rw [route_new m p hk] at h
    exact ⟨rfl, (Outcome.ok.inj h).symm⟩
  | some id =>
    cases hc : m.heap[id]? with
    | none =>
      unfold route at h
      simp only [hk, hc] at h
      exact absurd h (by simp)
    | some c =>
      by_cases hcl : c.sess.closed = true
      · by_cases hch : c.sess.recv.closed = true
        · unfold route at h
          simp only [hk, hc, hcl, hch, Bool.not_true, Bool.false_eq_true, if_false, if_true] at h
          exact absurd h (by simp)
        · right; right
          simp at hch
          rw [route_closed m p id c hk hc hcl hch] at h
          exact ⟨id, c, rfl, hc, hcl, (Outcome.ok.inj h).symm⟩
      · left
        simp at hcl
        by_cases hch : c.sess.recv.closed = true
        · unfold route at h
          simp only [hk, hc, hcl, Bool.not_false, if_true, Chan.send, hch] at h
          exact absurd h (by simp)
        · simp at hch
          by_cases hroom : c.sess.recv.buf.length < chanCap
          · rw [route_live m p id c hk hc hcl hch hroom] at h
            exact ⟨id, c, rfl, hc, hcl, (Outcome.ok.inj h).symm⟩
          · unfold route at h
            simp only [hk, hc, hcl, Bool.not_false, if_true, Chan.send, hch, hroom,
              Bool.false_eq_true, if_false] at h
            exact absurd h (by simp)

theorem WF_route (m : Machine) (p : tcpPacket) (m1 : Machine) (hwf : WF m)
    (h : route m p = Outcome.ok m1) : WF m1 := by
  rcases route_cases m p m1 h with ⟨id, c, _, _, _, hm⟩ | ⟨_, hm⟩ | ⟨id, c, _, _, _, hm⟩
  · rw [hm]
    exact WF_of_eq m _ rfl (by simp) hwf
  · rw [hm]
    exact WF_create m m.heap _ _ rfl hwf
  · rw [hm]
    exact WF_create m _ _ _ (by simp) hwf

theorem route_other_key (m : Machine) (p : tcpPacket) (m1 : Machine) (hwf : WF m)
    (h : route m p = Outcome.ok m1) (key : String) (idA : Nat)
    (hA : mapGet m.t.sessions key = some idA) (hne : fullAddr p ≠ key) :
    mapGet m1.t.sessions key = some idA ∧ m1.heap[idA]? = m.heap[idA]? := by
  have hlt := hwf.1 key idA hA
  rcases route_cases m p m1 h with ⟨id, c, hk, _, _, hm⟩ | ⟨_, hm⟩ | ⟨id, c, hk, _, _, hm⟩
  · have hid : id ≠ idA := fun e => hne (hwf.2 _ _ idA (e ▸ hk) hA)
    rw [hm]
    exact ⟨hA, List.getElem?_set_ne hid⟩
  · rw [hm]
    refine ⟨?_, ?_⟩
    · show mapGet (mapSet _ _ _) key = _
      rw [mapGet_mapSet]
      simp only [hne, if_false]
      exact hA
    · exact List.getElem?_append_left hlt
  · have hid : id ≠ idA := fun e => hne (hwf.2 _ _ idA (e ▸ hk) hA)
    rw [hm]
    refine ⟨?_, ?_⟩
    · show mapGet (mapSet _ _ _) key = _
      rw [mapGet_mapSet]
      simp only [hne, if_false]
      exact hA
    · show (m.heap.set id _ ++ _)[idA]? = _
      rw [List.getElem?_append_left (by simp; exact hlt)]
      exact List.getElem?_set_ne hid

theorem route_same_key (m : Machine) (p : tcpPacket) (m1 : Machine)
    (h : route m p = Outcome.ok m1) (idA : Nat) (c : Cell)
    (hA : mapGet m.t.sessions (fullAddr p) = some idA) (hc : m.heap[idA]? = some c)
    (hopen : c.sess.closed = false) :
    mapGet m1.t.sessions (fullAddr p) = some idA ∧
    m1.heap[idA]? =
      some { c with
             sess :=
               { c.sess with recv := { c.sess.recv with buf := c.sess.recv.buf ++ [p] } } } := by
  rcases route_cases m p m1 h with ⟨id, c2, hk, hc2, _, hm⟩ | ⟨hk, _⟩ | ⟨id, c2, hk, hc2, hcl, _⟩
  · rw [hA] at hk
    cases hk
    rw [hc] at hc2
    cases hc2
    rw [hm]
    exact ⟨hA, getElem?_set_of_some _ _ _ _ hc⟩
  · rw [hA] at hk
    exact absurd hk (by simp)
  · rw [hA] at hk
    cases hk
    rw [hc] at hc2
    cases hc2
    rw [hopen] at hcl
    exact absurd hcl (by simp)

theorem WF_mainStep (E : Env) (m : Machine) (p : Packet) (m1 : Machine) (hwf : WF m)
    (h : mainStep E m p = Outcome.ok m1) : WF m1 := by
  unfold mainStep at h
  cases htcp : Packet.LayerTCP p with
  | some tcp =>
    simp only [htcp] at h
    unfold handle at h
    cases hx : extract p with
    | none =>
      simp only [hx] at h
      exact absurd h (by simp)
    | some packet =>
      simp only [hx] at h
      exact WF_route m packet m1 hwf h
  | none =>
    simp only [htcp] at h
    cases harp : Packet.LayerARP p with
    | none =>
      simp only [harp] at h
      cases Outcome.ok.inj h
      exact hwf
    | some arpLayer =>
      simp only [harp] at h
      by_cases hop : arpLayer.Operation = ARPRequest
      · simp only [hop, ne_eq, not_true_eq_false, if_false] at h
        split at h
        · exact absurd h (by simp)
        · cases Outcome.ok.inj h
          exact WF_of_eq m _ rfl rfl hwf
      · simp only [ne_eq, hop, not_false_eq_true, if_true] at h
        cases Outcome.ok.inj h
        exact hwf

theorem WF_run (E : Env) (evs : List Event) : ∀ (m m1 : Machine), WF m →
    run E m evs = Outcome.ok m1 → WF m1 := by
  induction evs with
  | nil =>
    intro m m1 hwf h
    cases Outcome.ok.inj h
    exact hwf
  | cons e rest ih =>
    intro m m1 hwf h
    unfold run at h
    cases e with
    | frame p =>
      cases hs : mainStep E m p with
      | ok m2 =>
        simp only [step, hs] at h
        exact ih m2 m1 (WF_mainStep E m p m2 hwf hs) h
      | panic m2 =>
        simp only [step, hs] at h
        exact absurd h (by simp)
      | blocked =>
        simp only [step, hs] at h
        exact absurd h (by simp)
    | work id =>
      simp only [step] at h
      have ht := workerStep_table E m id
      exact ih _ m1 (WF_of_eq m _ ht.1 ht.2 hwf) h

theorem routeAll_queue (ps : List tcpPacket) : ∀ (m m1 : Machine) (key : String) (idA : Nat)
    (c : Cell), WF m → mapGet m.t.sessions key = some idA → m.heap[idA]? = some c →
    c.sess.closed = false → routeAll m ps = Outcome.ok m1 →
    mapGet m1.t.sessions key = some idA ∧
    m1.heap[idA]? =
      some { c with
             sess :=
               { c.sess with
                 recv :=
                   { c.sess.recv with
                     buf := c.sess.recv.buf ++
                       ps.filter (fun p => decide (fullAddr p = key)) } } } := by
  induction ps with
  | nil =>
    intro m m1 key idA c _ hA hc _ h
    cases Outcome.ok.inj h
    simp only [List.filter_nil, List.append_nil]
    exact ⟨hA, hc⟩
  | cons p rest ih =>
    intro m m1 key idA c hwf hA hc hopen h
    unfold routeAll at h
    cases hr : route m p with
    | panic m2 =>
      simp only [hr] at h
      exact absurd h (by simp)
    | blocked =>
      simp only [hr] at h
      exact absurd h (by simp)
    | ok m2 =>
      simp only [hr] at h
      have hwf2 := WF_route m p m2 hwf hr
      by_cases hkey : fullAddr p = key
      · subst hkey
        obtain ⟨hA2, hc2⟩ := route_same_key m p m2 hr idA c hA hc hopen
        have := ih m2 m1 (fullAddr p) idA _ hwf2 hA2 hc2 hopen h
        rw [List.filter_cons_of_pos (by simp)]
        simpa using this
      · obtain ⟨hA2, hc2⟩ := route_other_key m p m2 hwf hr key idA hA hkey
        rw [hc] at hc2
        have := ih m2 m1 key idA c hwf2 hA2 hc2 hopen h
        rw [List.filter_cons_of_neg (by simp [hkey])]
        exact this

theorem route_other_key_none (m : Machine) (p : tcpPacket) (m1 : Machine)
    (h : route m p = Outcome.ok m1) (key : String)
    (hA : mapGet m.t.sessions key = none) (hne : fullAddr p ≠ key) :
    mapGet m1.t.sessions key = none := by
  rcases route_cases m p m1 h with ⟨id, c, _, _, _, hm⟩ | ⟨_, hm⟩ | ⟨id, c, _, _, _, hm⟩
  · rw [hm]
    exact hA
  · rw [hm]
    show mapGet (mapSet _ _ _) key = _
    rw [mapGet_mapSet]
    simp only [hne, if_false]
    exact hA
  · rw [hm]
    show mapGet (mapSet _ _ _) key = _
    rw [mapGet_mapSet]
    simp only [hne, if_false]
    exact hA

theorem routeAll_fresh (ps : List tcpPacket) : ∀ (m m1 : Machine) (key : String),
    WF m → mapGet m.t.sessions key = none → routeAll m ps = Outcome.ok m1 →
    ps.filter (fun p => decide (fullAddr p = key)) ≠ [] →
    ∃ id, mapGet m1.t.sessions key = some id ∧
      m1.heap[id]? =
        some { sess :=
                 { newSession with
                   recv :=
                     { buf := ps.filter (fun p => decide (fullAddr p = key)), closed := false } }
               running := true } := by
  induction ps with
  | nil =>
    intro m m1 key _ _ _ hne
    exact absurd rfl hne
  | cons p rest ih =>
    intro m m1 key hwf hA h hne
    unfold routeAll at h
    cases hr : route m p with
    | panic m2 =>
      simp only [hr] at h
      exact absurd h (by simp)
    | blocked =>
      simp only [hr] at h
      exact absurd h (by simp)
    | ok m2 =>
      simp only [hr] at h
      have hwf2 := WF_route m p m2 hwf hr
      by_cases hkey : fullAddr p = key
      · subst hkey
        rw [route_new m p hA] at hr
        have hm2 := (Outcome.ok.inj hr).symm
        have hA2 : mapGet m2.t.sessions (fullAddr p) = some m.heap.length := by
          rw [hm2]
          show mapGet (mapSet _ _ _) _ = _
          rw [mapGet_mapSet]
          simp
        have hc2 : m2.heap[m.heap.length]? =
            some { sess := { newSession with recv := { buf := [p], closed := false } }
                   running := true } := by
          rw [hm2]
          exact getElem?_snoc_length _ _
        have := routeAll_queue rest m2 m1 (fullAddr p) m.heap.length _ hwf2 hA2 hc2 rfl h
        rw [List.filter_cons_of_pos (by simp)]
        exact ⟨m.heap.length, this.1, this.2⟩
      · have hA2 := route_other_key_none m p m2 hr key hA hkey
        rw [List.filter_cons_of_neg (by simp [hkey])] at hne ⊢
        exact ih m2 m1 key hwf2 hA2 h hne

/-- C6. (1) Two segments get the same flow key exactly when their source
address, source port, destination address and destination port agree, so
segments of different tuples get different keys. In every state `m` the
program reaches from its initial state by frames and worker steps: (2) routing
a segment whose key differs from `key` leaves the table entry of `key` and the
whole session object it points to, queue included, unchanged; (3) routing any
list of segments one after the other extends the queue of a session that is
live for `key` by exactly the segments of that key, in the order routed, and
changes nothing else of that session; (4) a worker step leaves every queue
as it was or takes its first segment; (5) routing any list of segments one
after the other, at least one of them of a key the table has no entry for,
leaves under that key a new session in `Listen` whose queue is exactly the
segments of that key, in the order routed. -/
theorem flow_isolation (E : Env) (evs : List Event) (m : Machine)
    (hrun : run E initMachine evs = Outcome.ok m) :
    (∀ a b : tcpPacket, fullAddr a = fullAddr b ↔
      (a.ip.SrcIP = b.ip.SrcIP ∧ a.transport.SrcPort = b.transport.SrcPort ∧
        a.ip.DstIP = b.ip.DstIP ∧ a.transport.DstPort = b.transport.DstPort)) ∧
    (∀ (key : String) (idA : Nat) (b : tcpPacket) (m1 : Machine),
      mapGet m.t.sessions key = some idA → fullAddr b ≠ key → route m b = Outcome.ok m1 →
      mapGet m1.t.sessions key = some idA ∧ m1.heap[idA]? = m.heap[idA]?) ∧
    (∀ (key : String) (idA : Nat) (c : Cell) (ps : List tcpPacket) (m1 : Machine),
      mapGet m.t.sessions key = some idA → m.heap[idA]? = some c → c.sess.closed = false →
      routeAll m ps = Outcome.ok m1 →
      mapGet m1.t.sessions key = some idA ∧
      m1.heap[idA]? =
        some { c with
               sess :=
                 { c.sess with
                   recv :=
                     { c.sess.recv with
                       buf := c.sess.recv.buf ++
                         ps.filter (fun p => decide (fullAddr p = key)) } } }) ∧
    (∀ (id j : Nat) (c : Cell), m.heap[id]? = some c →
      ∃ c1, (workerStep E m j).heap[id]? = some c1 ∧
        (c1.sess.recv.buf = c.sess.recv.buf ∨ c1.sess.recv.buf = c.sess.recv.buf.tail)) ∧
    (∀ (key : String) (ps : List tcpPacket) (m1 : Machine),
      mapGet m.t.sessions key = none → routeAll m ps = Outcome.ok m1 →
      ps.filter (fun p => decide (fullAddr p = key)) ≠ [] →
      ∃ id, mapGet m1.t.sessions key = some id ∧
        m1.heap[id]? =
          some { sess :=
                   { newSession with
                     recv :=
                       { buf := ps.filter (fun p => decide (fullAddr p = key))
                         closed := false } }
                 running := true }) := by
  have hwf := WF_run E evs initMachine m WF_init hrun
  refine ⟨fun a b => ⟨fun h => fullAddr_inj h, fun h => ?_⟩, ?_, ?_, ?_,
    fun key ps m1 hA hr hne => routeAll_fresh ps m m1 key hwf hA hr hne⟩
  · unfold fullAddr
    rw [h.1, h.2.1, h.2.2.1, h.2.2.2]
  · intro key idA b m1 hA hne hr
    exact route_other_key m b m1 hwf hr key idA hA hne
  · intro key idA c ps m1 hA hc hopen hr
    exact routeAll_queue ps m m1 key idA c hwf hA hc hopen hr
  · intro id j c hc
    rcases workerStep_cases E m j with h | ⟨cj, hcj, h⟩ | ⟨cj, packet, rest, hcj, hbuf, h⟩
    · rw [h]
      exact ⟨c, hc, Or.inl rfl⟩
    · rw [h]
      by_cases hij : j = id
      · subst hij
        rw [hc] at hcj
        cases hcj
        exact ⟨_, getElem?_set_of_some _ _ _ _ hc, Or.inl rfl⟩
      · exact ⟨c, by simp only [List.getElem?_set_ne hij]; exact hc, Or.inl rfl⟩
    · rw [h]
      by_cases hij : j = id
      · subst hij
        rw [hc] at hcj
        cases hcj
        refine ⟨_, getElem?_set_of_some _ _ _ _ hc, Or.inr ?_⟩
        simp only [(workerBody_frame E m.t _ packet).2.2.2, hbuf]
        rfl
      · exact ⟨c, by simp only [List.getElem?_set_ne hij]; exact hc, Or.inl rfl⟩

/-- Witness for C6: after the sample SYN has been routed from the initial
state, routing a segment of the flow from port 4001 leaves the first flow's
session as it was. -/
theorem flow_isolation_witness :
    ∃ m, run envFull initMachine [Event.frame synFrame] = Outcome.ok m ∧
      fullAddr synOther ≠ fullAddr syn100 ∧
      ∀ m1, route m synOther = Outcome.ok m1 → m1.heap[0]? = m.heap[0]? :=
  ⟨_, rfl, by decide, fun m1 h =>
    ((flow_isolation envFull [Event.frame synFrame] _ rfl).2.1 (fullAddr syn100) 0 synOther m1
      rfl (by decide) h).2⟩

end Tuntcp
